import Mathlib

/-!
# DNS seeder: the request pipeline of `dns.go`

A shallow embedding of `src/dns.go` (package `main` of the DNS seeder) and the
properties of its per-datagram pipeline

    validateDNSRequest → extractSubnetworkID → buildDNSResponse → WriteToUDP

Conventions of the embedding.

* A Go `string` is the list of its characters (`GoString`).  The code only
  appends, compares, indexes the first and last position and searches
  substrings, which agree on bytes and on characters of valid UTF-8 text.
* A Go `error` is `Option Err` (`none` is `nil`); a pointer that may be `nil`
  is an `Option`; a `nil` slice is the empty list.
* A function that can hit a run-time panic (index out of range, nil
  dereference) returns an `Option` whose `none` is the panic.
* Functions of other packages (`miekg/dns`, `net`, the address manager, the
  subnetwork-identifier parser) are not part of this file's source: they are
  the fields of `Env`, and the definitions that call them take the
  environment as their first argument.
* The calls and effects of one worker are recorded as a list of `Event`s,
  those of the listener of `Start` as a list of `StartEvent`s; the listener
  is a function of what its reads meet.  Logging is not modelled.
-/

set_option maxRecDepth 100000

namespace DNSSeeder

/-! ## Data model -/

/-- Go `string`. -/
abbrev GoString := List Char

/-- Go `[]byte`. -/
abbrev Bytes := List Nat

/-- Go `net.IP` (a byte slice of length 4 or 16). -/
abbrev NetIP := List Nat

/-- Type `externalapi.DomainSubnetworkID` (a fixed-size byte array). -/
abbrev DomainSubnetworkID := List Nat

/-- Go `net.UDPAddr`. -/
structure UDPAddr where
  IP : NetIP
  Port : Nat
  Zone : GoString
  deriving DecidableEq, Repr

/-- Type `appmessage.NetAddress`, as far as the responder reads it. -/
structure NetAddress where
  IP : NetIP
  Port : Nat
  deriving DecidableEq, Repr

/-- Constant `dns.TypeA`. -/
def TypeA : Nat := 1

/-- Constant `dns.TypeNS`. -/
def TypeNS : Nat := 2

/-- Constant `dns.TypeAAAA`. -/
def TypeAAAA : Nat := 28

/-- Constant `dns.TypeMX` (an unsupported query type, used in examples). -/
def TypeMX : Nat := 15

/-- Type `dns.Question`. -/
structure Question where
  Name : GoString
  Qtype : Nat
  Qclass : Nat
  deriving DecidableEq, Repr

/-- Type `dns.RR_Header`. -/
structure RR_Header where
  Name : GoString
  Rrtype : Nat
  Class : Nat
  Ttl : Nat
  deriving DecidableEq, Repr

/-- A resource record (`dns.RR`): its header and its data in presentation form. -/
structure RR where
  Hdr : RR_Header
  Rdata : GoString
  deriving DecidableEq, Repr

/-- Type `dns.MsgHdr`. -/
structure MsgHdr where
  Id : Nat
  Response : Bool
  Opcode : Int
  Authoritative : Bool
  Truncated : Bool
  RecursionDesired : Bool
  RecursionAvailable : Bool
  Zero : Bool
  AuthenticatedData : Bool
  CheckingDisabled : Bool
  Rcode : Int
  deriving DecidableEq, Repr

/-- Type `dns.Msg`. -/
structure Msg extends MsgHdr where
  Compress : Bool
  Question : List Question
  Answer : List RR
  Ns : List RR
  Extra : List RR
  deriving DecidableEq, Repr

/-- Error values.  `lib` is an error returned by another package; the other
three are the errors `dns.go` creates itself with `errors.Errorf`. -/
inductive Err where
  /-- An error value produced by an external package. -/
  | lib (msg : GoString)
  /-- Text `"%s sent more than 1 question: %d"`. -/
  | questionCount (addr : UDPAddr) (n : Nat)
  /-- Text `"invalid name: %s"`. -/
  | invalidName (name : GoString)
  /-- Text `"%s: invalid qtype: %d"`. -/
  | invalidQtype (addr : UDPAddr) (qtype : Nat)
  deriving DecidableEq, Repr

/-- Go `error`: `none` is `nil`. -/
abbrev error := Option Err

/-- Type `DNSServer`. -/
structure DNSServer where
  hostname : GoString
  listen : GoString
  nameserver : GoString
  deriving DecidableEq, Repr

/-- The functions and constants of other packages that `dns.go` uses. -/
structure Env where
  /-- Constant `dnsseed.SubnetworkIDPrefixChar`, the marker character. -/
  SubnetworkIDPrefixChar : Char
  /-- Function `subnetworks.FromString`, the subnetwork-identifier parser. -/
  FromString : GoString → Option DomainSubnetworkID × error
  /-- Function `dns.SplitDomainName`. -/
  SplitDomainName : GoString → List GoString
  /-- Method `(*dns.Msg).Unpack` on a fresh message. -/
  Unpack : Bytes → Except Err Msg
  /-- Method `(*dns.Msg).Pack`. -/
  Pack : Msg → Except Err Bytes
  /-- Function `dns.NewRR`, the parser of one zone-file line. -/
  NewRR : GoString → Except Err RR
  /-- Method `net.IP.String`. -/
  IPString : NetIP → GoString
  /-- Method `amgr.GoodAddresses`, the Address Source. -/
  GoodAddresses : Nat → Bool → Option DomainSubnetworkID → List NetAddress

/-- The three stages of the worker pipeline. -/
inductive Stage where
  | validateDNSRequest
  | extractSubnetworkID
  | buildDNSResponse
  deriving DecidableEq, Repr

/-- What one worker does, in order. -/
inductive Event where
  /-- A pipeline stage is called. -/
  | call (stage : Stage)
  /-- Call `amgr.GoodAddresses(qtype, includeAllSubnetworks, subnetworkID)`. -/
  | GoodAddresses (qtype : Nat) (includeAllSubnetworks : Bool)
      (subnetworkID : Option DomainSubnetworkID)
  /-- Call `udpListen.WriteToUDP(sendBytes, addr)`. -/
  | WriteToUDP (sendBytes : Bytes) (addr : UDPAddr)
  /-- The deferred `wg.Done()`. -/
  | wgDone
  /-- A run-time panic leaves the worker. -/
  | panic
  deriving DecidableEq, Repr

/-! ## Library functions of the Go standard library -/

/-- Go `strings.ToLower` on ASCII text: `A`..`Z` are mapped to `a`..`z`.
Question names produced by the DNS codec are printable ASCII. -/
def ToLower (s : GoString) : GoString := s.map Char.toLower

/-- Go `strings.LastIndex`: the index of the last occurrence of `substr` in
`s`, or `-1` when there is none. -/
def LastIndex (s substr : GoString) : Int :=
  match (List.range (s.length + 1)).reverse.find? (fun i => substr.isPrefixOf (s.drop i)) with
  | some i => (i : Int)
  | none => -1

/-- The address `net.ParseIP("100::")`, in its 16-byte form. -/
def placeholderIP : NetIP := [1, 0, 0, 0, 0, 0, 0, 0, 0, 0, 0, 0, 0, 0, 0, 0]

/-! ## The code of `dns.go` -/

/-- Function `NewDNSServer` (lines 93-106).  `none` is the index-out-of-range
panic of `hostname[len(hostname)-1]` or `nameserver[len(nameserver)-1]`. -/
def NewDNSServer (hostname nameserver listen : GoString) : Option DNSServer := do
  let hostnameLast ← hostname[hostname.length - 1]?
  let hostname := if hostnameLast ≠ '.' then hostname ++ ['.'] else hostname
  let nameserverLast ← nameserver[nameserver.length - 1]?
  let nameserver := if nameserverLast ≠ '.' then nameserver ++ ['.'] else nameserver
  return { hostname := hostname, listen := listen, nameserver := nameserver }

/-- Method `extractSubnetworkID` (lines 108-128); the result is
`(subnetworkID, includeAllSubnetworks, err)`.  `none` is the index-out-of-range
panic of `labels[0][0]`.  The `subnetworkID, err := ...` of line 119 declares
new variables inside the inner block, as the inner `let` does here. -/
def extractSubnetworkID (E : Env) (d : DNSServer) (_addr : UDPAddr) (domainName : GoString) :
    Option (Option DomainSubnetworkID × Bool × error) := do
  let subnetworkID : Option DomainSubnetworkID := none
  let mut includeAllSubnetworks := true
  if d.hostname ≠ domainName then
    let labels := E.SplitDomainName domainName
    let label0 ← labels[0]?
    let label00 ← label0[0]?
    if label00 = E.SubnetworkIDPrefixChar then
      includeAllSubnetworks := false
      if label0.length > 1 then
        let (subnetworkID, err) := E.FromString (label0.drop 1)
        if err ≠ none then
          return (subnetworkID, includeAllSubnetworks, err)
  return (subnetworkID, includeAllSubnetworks, none)

/-- Function `translateDNSQuestion` (lines 153-169); the result is
`(atype, err)`.  `none` is the panic of `dnsMsg.Question[0]`. -/
def translateDNSQuestion (addr : UDPAddr) (dnsMsg : Msg) : Option (GoString × error) := do
  let question0 ← dnsMsg.Question[0]?
  let qtype := question0.Qtype
  if qtype = TypeA then
    return ("A".toList, none)
  else if qtype = TypeAAAA then
    return ("AAAA".toList, none)
  else if qtype = TypeNS then
    return ("NS".toList, none)
  else
    return ([], some (Err.invalidQtype addr question0.Qtype))

/-- Method `validateDNSRequest` (lines 130-151); the result is
`(dnsMsg, domainName, atype, err)`. -/
def validateDNSRequest (E : Env) (d : DNSServer) (addr : UDPAddr) (b : Bytes) :
    Option (Option Msg × GoString × GoString × error) :=
  match E.Unpack b with
  | .error err => some (none, [], [], some err)
  | .ok dnsMsg =>
    if dnsMsg.Question.length ≠ 1 then
      some (none, [], [], some (Err.questionCount addr dnsMsg.Question.length))
    else
      match dnsMsg.Question[0]? with
      | none => none
      | some question0 =>
        let domainName := ToLower question0.Name
        let ff := LastIndex domainName d.hostname
        if ff < 0 then
          some (none, [], [], some (Err.invalidName question0.Name))
        else
          match translateDNSQuestion addr dnsMsg with
          | none => none
          | some (atype, err) => some (some dnsMsg, domainName, atype, err)

/-- The loop of lines 187-196: one `dns.NewRR` per address, each record
appended to `respMsg.Answer`; the first failure leaves the function with the
error. -/
def answerLoop (E : Env) (name atype : GoString) :
    List NetAddress → List RR → Except Err (List RR)
  | [], answer => .ok answer
  | a :: addrs, answer =>
    let rr := name ++ " 30 IN ".toList ++ atype ++ " ".toList ++ E.IPString a.IP
    match E.NewRR rr with
    | .error err => .error err
    | .ok newRR => answerLoop E name atype addrs (answer ++ [newRR])

/-- Lines 174-206 of `buildDNSResponse`: the message `respMsg` on which
`Pack` is called, with the calls made on the way.  In the result `none` is
the panic of `dnsMsg.Question[0]`, and `.error` is the early `return nil, err`. -/
def respMsg (E : Env) (d : DNSServer) (_addr : UDPAddr) (authority : RR) (dnsMsg : Msg)
    (includeAllSubnetworks : Bool) (subnetworkID : Option DomainSubnetworkID)
    (atype : GoString) : List Event × Option (Except Err Msg) :=
  let respMsg : Msg := { dnsMsg with Authoritative := true, Response := true }
  match dnsMsg.Question[0]? with
  | none => ([], none)
  | some question0 =>
    let qtype := question0.Qtype
    if qtype ≠ TypeNS then
      let respMsg : Msg := { respMsg with Ns := respMsg.Ns ++ [authority] }
      let addrs := E.GoodAddresses qtype includeAllSubnetworks subnetworkID
      let addrs :=
        if addrs.length = 0 ∧ qtype = TypeAAAA then
          addrs ++ [{ IP := placeholderIP, Port := 0 }]
        else addrs
      match answerLoop E question0.Name atype addrs respMsg.Answer with
      | .error err =>
        ([Event.GoodAddresses qtype includeAllSubnetworks subnetworkID], some (.error err))
      | .ok answer =>
        ([Event.GoodAddresses qtype includeAllSubnetworks subnetworkID],
          some (.ok { respMsg with Answer := answer }))
    else
      let rr := question0.Name ++ " 86400 IN NS ".toList ++ d.nameserver
      match E.NewRR rr with
      | .error err => ([], some (.error err))
      | .ok newRR => ([], some (.ok { respMsg with Answer := respMsg.Answer ++ [newRR] }))

/-- Method `buildDNSResponse` (lines 171-214); the result is the calls made
and `(sendBytes, err)`, or `none` for a panic. -/
def buildDNSResponse (E : Env) (d : DNSServer) (addr : UDPAddr) (authority : RR) (dnsMsg : Msg)
    (includeAllSubnetworks : Bool) (subnetworkID : Option DomainSubnetworkID)
    (atype : GoString) : List Event × Option (Bytes × error) :=
  match respMsg E d addr authority dnsMsg includeAllSubnetworks subnetworkID atype with
  | (events, none) => (events, none)
  | (events, some (.error err)) => (events, some ([], some err))
  | (events, some (.ok respMsg)) =>
    match E.Pack respMsg with
    | .error err => (events, some ([], some err))
    | .ok sendBytes => (events, some (sendBytes, none))

/-- The body of `handleDNSRequest` (lines 219-241): the events up to the
point where the function is left, and whether it is left by a panic. -/
def handleDNSRequestBody (E : Env) (d : DNSServer) (addr : UDPAddr) (authority : RR)
    (b : Bytes) : List Event × Bool :=
  match validateDNSRequest E d addr b with
  | none => ([.call .validateDNSRequest], true)
  | some (dnsMsg, domainName, atype, err) =>
    if err ≠ none then ([.call .validateDNSRequest], false)
    else
      match extractSubnetworkID E d addr domainName with
      | none => ([.call .validateDNSRequest, .call .extractSubnetworkID], true)
      | some (subnetworkID, includeAllSubnetworks, err) =>
        if err ≠ none then ([.call .validateDNSRequest, .call .extractSubnetworkID], false)
        else
          -- line 229 reads dnsMsg.Question[0].Qtype for the log
          match dnsMsg.bind (fun m => m.Question[0]?.map (fun _ => m)) with
          | none => ([.call .validateDNSRequest, .call .extractSubnetworkID], true)
          | some dnsMsg =>
            match buildDNSResponse E d addr authority dnsMsg includeAllSubnetworks
                subnetworkID atype with
            | (events, none) =>
              ([.call .validateDNSRequest, .call .extractSubnetworkID,
                .call .buildDNSResponse] ++ events, true)
            | (events, some (sendBytes, err)) =>
              if err ≠ none then
                ([.call .validateDNSRequest, .call .extractSubnetworkID,
                  .call .buildDNSResponse] ++ events, false)
              else
                ([.call .validateDNSRequest, .call .extractSubnetworkID,
                  .call .buildDNSResponse] ++ events ++ [.WriteToUDP sendBytes addr], false)

/-- Method `handleDNSRequest` (lines 216-242): everything one worker does.
The deferred `wg.Done()` of line 217 runs on every way out, also when a
panic unwinds the function. -/
def handleDNSRequest (E : Env) (d : DNSServer) (addr : UDPAddr) (authority : RR)
    (b : Bytes) : List Event :=
  match handleDNSRequestBody E d addr authority b with
  | (events, panicked) => events ++ [.wgDone] ++ (if panicked then [.panic] else [])

/-! ## A reference environment

A small concrete instance of `Env`, on which the code can be run.  It follows
the documented behaviour of the external functions on the inputs used in the
examples: names without escape sequences, identifiers of 40 hexadecimal
digits, zone-file lines of the form `owner ttl IN type data`. -/

/-- The value of one hexadecimal digit. -/
def hexDigit? (c : Char) : Option Nat :=
  if c.isDigit then some (c.toNat - 48)
  else if 97 ≤ c.toNat ∧ c.toNat ≤ 102 then some (c.toNat - 87)
  else if 65 ≤ c.toNat ∧ c.toNat ≤ 70 then some (c.toNat - 55)
  else none

/-- Go `hex.DecodeString`: two digits per byte. -/
def hexDecode : GoString → Option (List Nat)
  | [] => some []
  | [_] => none
  | hi :: lo :: rest =>
    match hexDigit? hi, hexDigit? lo, hexDecode rest with
    | some x, some y, some bytes => some ((16 * x + y) :: bytes)
    | _, _, _ => none

/-- Reference `subnetworks.FromString`: the hexadecimal text of exactly 20 bytes. -/
def refFromString (str : GoString) : Option DomainSubnetworkID × error :=
  match hexDecode str with
  | none => (none, some (Err.lib "encoding/hex: invalid byte".toList))
  | some bytes =>
    if bytes.length ≠ 20 then (none, some (Err.lib "invalid hash size".toList))
    else (some bytes, none)

/-- The pieces of a text between occurrences of `sep`, read left to right;
`cur` is the piece being read.  A text that ends in `sep` has no empty last
piece. -/
def splitSep (sep : Char) : GoString → GoString → List GoString
  | [], cur => if cur = [] then [] else [cur]
  | c :: cs, cur => if c = sep then cur :: splitSep sep cs [] else splitSep sep cs (cur ++ [c])

/-- Reference `dns.SplitDomainName` for names without escape sequences: the
empty name and the root name have no labels. -/
def refSplitDomainName (s : GoString) : List GoString :=
  if s = [] ∨ s = ['.'] then [] else splitSep '.' s []

/-- The value of a decimal numeral, `none` when a character is not a digit. -/
def decimal? (s : GoString) : Option Nat :=
  if s = [] then none
  else s.foldl (fun acc c => acc.bind (fun n => if c.isDigit then some (10 * n + (c.toNat - 48)) else none))
    (some 0)

/-- Reference `dns.NewRR` for lines `owner ttl IN type data` with type A, AAAA
or NS: an A record wants dotted digits, an AAAA record wants a colon. -/
def refNewRR (line : GoString) : Except Err RR :=
  match splitSep ' ' line [] with
  | [owner, ttl, cls, typ, data] =>
    match decimal? ttl with
    | none => .error (Err.lib "dns: bad TTL".toList)
    | some t =>
      if cls ≠ "IN".toList then .error (Err.lib "dns: bad class".toList)
      else if typ = "NS".toList then
        .ok { Hdr := { Name := owner, Rrtype := TypeNS, Class := 1, Ttl := t }, Rdata := data }
      else if typ = "A".toList then
        if data.all (fun c => c.isDigit || c = '.') then
          .ok { Hdr := { Name := owner, Rrtype := TypeA, Class := 1, Ttl := t }, Rdata := data }
        else .error (Err.lib "dns: bad A A".toList)
      else if typ = "AAAA".toList then
        if data.contains ':' then
          .ok { Hdr := { Name := owner, Rrtype := TypeAAAA, Class := 1, Ttl := t }, Rdata := data }
        else .error (Err.lib "dns: bad AAAA AAAA".toList)
      else .error (Err.lib "dns: unknown RR type".toList)
  | _ => .error (Err.lib "dns: not a resource record".toList)

/-- The 16-bit groups of a 16-byte address. -/
def groups16 : List Nat → List Nat
  | hi :: lo :: rest => (256 * hi + lo) :: groups16 rest
  | _ => []

/-- Reference `net.IP.String`: dotted decimal for 4 bytes; for 16 bytes the
hexadecimal groups, a trailing run of two or more zero groups written `::`
(exact for addresses whose zero groups are all at the end). -/
def refIPString (ip : NetIP) : GoString :=
  match ip with
  | [a, b, c, e] =>
    Nat.toDigits 10 a ++ ['.'] ++ Nat.toDigits 10 b ++ ['.'] ++ Nat.toDigits 10 c ++ ['.'] ++
      Nat.toDigits 10 e
  | _ =>
    if ip.length ≠ 16 then "<nil>".toList
    else
      let gs := groups16 ip
      let kept := (gs.reverse.dropWhile (fun g => g = 0)).reverse
      if kept.length ≤ 6 then [':'].intercalate (kept.map (Nat.toDigits 16)) ++ "::".toList
      else [':'].intercalate (gs.map (Nat.toDigits 16))

/-- Reference `Pack`: the 12-byte header of the message (identifier, flags and
the four section counts); the sections themselves are not encoded. -/
def refPack (m : Msg) : Except Err Bytes :=
  let bit (b : Bool) (k : Nat) : Nat := if b then 2 ^ k else 0
  .ok [m.Id / 256 % 256, m.Id % 256,
    bit m.Response 7 + (m.Opcode.toNat % 16) * 8 + bit m.Authoritative 2 + bit m.Truncated 1 +
      bit m.RecursionDesired 0,
    bit m.RecursionAvailable 7 + bit m.Zero 6 + bit m.AuthenticatedData 5 +
      bit m.CheckingDisabled 4 + m.Rcode.toNat % 16,
    m.Question.length / 256 % 256, m.Question.length % 256,
    m.Answer.length / 256 % 256, m.Answer.length % 256,
    m.Ns.length / 256 % 256, m.Ns.length % 256,
    m.Extra.length / 256 % 256, m.Extra.length % 256]

/-- The reference environment: marker `n`, the datagrams of `wire` decode to
the messages listed with them (every other datagram fails to unpack), and
`peers` is the Address Source. -/
def refEnv (wire : List (Bytes × Msg))
    (peers : Nat → Bool → Option DomainSubnetworkID → List NetAddress) : Env where
  SubnetworkIDPrefixChar := 'n'
  FromString := refFromString
  SplitDomainName := refSplitDomainName
  Unpack := fun b =>
    match wire.lookup b with
    | some m => .ok m
    | none => .error (Err.lib "dns: bad message".toList)
  Pack := refPack
  NewRR := refNewRR
  IPString := refIPString
  GoodAddresses := peers

/-! ## Example data -/

/-- The server of the examples: `seed.example.com.` served by `ns.example.com.`. -/
def exServer : DNSServer :=
  { hostname := "seed.example.com.".toList, listen := "0.0.0.0:5354".toList,
    nameserver := "ns.example.com.".toList }

/-- The sender of the example datagrams. -/
def exAddr : UDPAddr := { IP := [192, 0, 2, 7], Port := 40000, Zone := [] }

/-- The authority record `Start` builds for `exServer` (lines 37-38). -/
def exAuthority : RR :=
  { Hdr := { Name := "seed.example.com.".toList, Rrtype := TypeNS, Class := 1, Ttl := 86400 },
    Rdata := "ns.example.com.".toList }

/-- A plain query message: one question, recursion desired, no records. -/
def queryMsg (id : Nat) (name : GoString) (qtype : Nat) : Msg :=
  { Id := id, Response := false, Opcode := 0, Authoritative := false, Truncated := false,
    RecursionDesired := true, RecursionAvailable := false, Zero := false,
    AuthenticatedData := false, CheckingDisabled := false, Rcode := 0, Compress := false,
    Question := [{ Name := name, Qtype := qtype, Qclass := 1 }],
    Answer := [], Ns := [], Extra := [] }

/-- The read buffer of `Start` (512 bytes) holding the wire form of a plain
query for the name with the given labels. -/
def queryDatagram (id : Nat) (labels : List GoString) (qtype : Nat) : Bytes :=
  let wire : Bytes :=
    [id / 256 % 256, id % 256, 1, 0, 0, 1, 0, 0, 0, 0, 0, 0] ++
      (labels.map (fun l => l.length :: l.map Char.toNat)).flatten ++
      [0, qtype / 256 % 256, qtype % 256, 0, 1]
  wire ++ List.replicate (512 - wire.length) 0

/-- An Address Source that knows no peer. -/
def noPeers : Nat → Bool → Option DomainSubnetworkID → List NetAddress := fun _ _ _ => []

/-- An Address Source that knows the two IPv4 peers `1.2.3.4` and `5.6.7.8`. -/
def twoPeers : Nat → Bool → Option DomainSubnetworkID → List NetAddress := fun qtype _ _ =>
  if qtype = TypeA then [{ IP := [1, 2, 3, 4], Port := 0 }, { IP := [5, 6, 7, 8], Port := 0 }]
  else []

/-! ## Vocabulary of the statements -/

/-- The query types the validator maps to a name: A, AAAA and NS. -/
def SupportedType (qtype : Nat) : Prop := qtype = TypeA ∨ qtype = TypeAAAA ∨ qtype = TypeNS

/-- The validator returns with a nil error: the datagram is accepted. -/
def Accepted (E : Env) (d : DNSServer) (addr : UDPAddr) (b : Bytes) : Prop :=
  ∃ dnsMsg domainName atype,
    validateDNSRequest E d addr b = some (dnsMsg, domainName, atype, none)

/-- The validator returns with an error: the datagram is rejected. -/
def Rejected (E : Env) (d : DNSServer) (addr : UDPAddr) (b : Bytes) : Prop :=
  ∃ dnsMsg domainName atype err,
    validateDNSRequest E d addr b = some (dnsMsg, domainName, atype, some err)

/-- The event is a transmission. -/
def Event.isWrite : Event → Bool
  | .WriteToUDP _ _ => true
  | _ => false

/-- The event is a call of the Address Source. -/
def Event.isGoodAddresses : Event → Bool
  | .GoodAddresses _ _ _ => true
  | _ => false

/-- The subnetwork identifier of the examples, as the text of 20 bytes. -/
def exSubnetworkText : GoString := "0300000000000000000000000000000000000000".toList

/-- The subnetwork identifier of the examples. -/
def exSubnetworkID : DomainSubnetworkID :=
  [3, 0, 0, 0, 0, 0, 0, 0, 0, 0, 0, 0, 0, 0, 0, 0, 0, 0, 0, 0]

/-- The zone-file line `owner ttl IN typ data`, the text `dns.NewRR` is given
for a record with these fields. -/
def zoneLine (owner : GoString) (ttl : Nat) (typ data : GoString) : GoString :=
  owner ++ " ".toList ++ Nat.toDigits 10 ttl ++ " IN ".toList ++ typ ++ " ".toList ++ data

/-- The record `rr` is what `dns.NewRR` builds for owner `owner`, TTL `ttl`,
class IN, type `typ` and data `data`. -/
def IsRecord (E : Env) (owner : GoString) (ttl : Nat) (typ data : GoString) (rr : RR) : Prop :=
  E.NewRR (zoneLine owner ttl typ data) = .ok rr

/-- A record a sender may put into the answer section of its own datagram. -/
def carriedRR : RR :=
  { Hdr := { Name := "seed.example.com.".toList, Rrtype := TypeA, Class := 1, Ttl := 3600 },
    Rdata := "203.0.113.66".toList }

/-- A query message that already carries `carriedRR` in its answer section. -/
def carryingMsg (id : Nat) (name : GoString) (qtype : Nat) : Msg :=
  { queryMsg id name qtype with Answer := [carriedRR] }

/-- The read buffer holding the wire form of `carryingMsg`: the header counts
one answer, and the record follows the question (owner given by a pointer to
the question name). -/
def carryingDatagram (id : Nat) (labels : List GoString) (qtype : Nat) : Bytes :=
  let wire : Bytes :=
    [id / 256 % 256, id % 256, 1, 0, 0, 1, 0, 1, 0, 0, 0, 0] ++
      (labels.map (fun l => l.length :: l.map Char.toNat)).flatten ++
      [0, qtype / 256 % 256, qtype % 256, 0, 1] ++
      [192, 12, 0, 1, 0, 1, 0, 0, 14, 16, 0, 4, 203, 0, 113, 66]
  wire ++ List.replicate (512 - wire.length) 0

/-- The name `n<identifier>.seed.example.com.`: the marker and the example
identifier in the label before the hostname. -/
def exSubnetworkName : GoString := 'n' :: exSubnetworkText ++ ".seed.example.com.".toList

/-- The datagram of a type A query for `exSubnetworkName`. -/
def exSubnetworkDatagram : Bytes :=
  queryDatagram 7 ['n' :: exSubnetworkText, "seed".toList, "example".toList, "com".toList] TypeA

/-- The datagram of a type A query for `seed.example.com.`. -/
def exDatagramA : Bytes :=
  queryDatagram 4660 ["seed".toList, "example".toList, "com".toList] TypeA

/-- The addresses an AAAA response is built from: those of the Address
Source, or the placeholder alone when there are none. -/
def aaaaAddresses (addrs : List NetAddress) : List NetAddress :=
  if addrs = [] then [{ IP := placeholderIP, Port := 0 }] else addrs

/-- The inbound message with the two response flags set, the authority
record appended to its authority section and `rrs` appended to its answer
section. -/
def addressResponse (m : Msg) (authority : RR) (rrs : List RR) : Msg :=
  { m with Authoritative := true, Response := true, Ns := m.Ns ++ [authority],
           Answer := m.Answer ++ rrs }

/-- The inbound message with the two response flags set and `rr` appended to
its answer section. -/
def nsResponse (m : Msg) (rr : RR) : Msg :=
  { m with Authoritative := true, Response := true, Answer := m.Answer ++ [rr] }

/-- The name `seed.example.com.`. -/
def exName : GoString := "seed.example.com.".toList

/-- The labels of `seed.example.com.`. -/
def exLabels : List GoString := ["seed".toList, "example".toList, "com".toList]

/-- The NS record answered for `seed.example.com.` by the server of the examples. -/
def exNSRecord : RR :=
  { Hdr := { Name := exName, Rrtype := TypeNS, Class := 1, Ttl := 86400 },
    Rdata := "ns.example.com.".toList }

/-- The record of type `rrtype` answered for `seed.example.com.` with TTL 30. -/
def exAnswer (rrtype : Nat) (data : GoString) : RR :=
  { Hdr := { Name := exName, Rrtype := rrtype, Class := 1, Ttl := 30 }, Rdata := data }

/-- The name `nzz.seed.example.com.`: the marker followed by text that is not
a subnetwork identifier. -/
def exBadName : GoString := "nzz.seed.example.com.".toList

/-- The datagram of a type A query for `exBadName`. -/
def exBadDatagram : Bytes :=
  queryDatagram 17 ["nzz".toList, "seed".toList, "example".toList, "com".toList] TypeA

/-- The server `NewDNSServer` returns for the hostname `Seed.Example.com`. -/
def exMixedCaseServer : DNSServer :=
  { hostname := "Seed.Example.com.".toList, listen := "0.0.0.0:5354".toList,
    nameserver := "ns.example.com.".toList }

/-- The name `seed.example.com.evil.org.`, which contains the hostname of the
examples but does not end with it. -/
def exForeignName : GoString := "seed.example.com.evil.org.".toList

/-- The datagram of a type A query for `exForeignName`. -/
def exForeignDatagram : Bytes :=
  queryDatagram 18
    ["seed".toList, "example".toList, "com".toList, "evil".toList, "org".toList] TypeA

/-- The datagram of a type A query for `Seed.Example.COM.`. -/
def exUpperDatagram : Bytes :=
  queryDatagram 19 ["Seed".toList, "Example".toList, "COM".toList] TypeA

/-- The datagram of a type A query for `seed.example.org.`. -/
def exOtherDatagram : Bytes :=
  queryDatagram 20 ["seed".toList, "example".toList, "org".toList] TypeA

/-- The datagram of a type MX query for `seed.example.com.`. -/
def exDatagramMX : Bytes := queryDatagram 21 exLabels TypeMX

/-! ## The listener of `Start` -/

/-- What one pass of lines 60-65 meets: the outcome of `SetReadDeadline` and
of `ReadFromUDP`. -/
inductive ReadResult where
  /-- The call `SetReadDeadline` returns an error. -/
  | deadlineError
  /-- The call `ReadFromUDP` returns no error: the sender, and the buffer after the read. -/
  | datagram (addr : UDPAddr) (b : Bytes)
  /-- The call `ReadFromUDP` returns a `net.Error` whose `Timeout()` is true. -/
  | timeout
  /-- The call `ReadFromUDP` returns another error. -/
  | otherError
  deriving DecidableEq, Repr

/-- What the listener does, in order.  Buffers are numbered in the order of
their allocation. -/
inductive StartEvent where
  /-- Line 58, `b := make([]byte, 512)`: buffer number `buffer` is allocated. -/
  | make (buffer : Nat)
  /-- Call `udpListen.SetReadDeadline`. -/
  | SetReadDeadline
  /-- Call `udpListen.ReadFromUDP(b)` on buffer number `buffer`. -/
  | ReadFromUDP (buffer : Nat)
  /-- Call `atomic.LoadInt32(&systemShutdown)`. -/
  | LoadShutdown
  /-- Call `wg.Add(1)`. -/
  | wgAdd
  /-- Call `spawn`: a worker `handleDNSRequest(addr, authority, udpListen, b)`
  on buffer number `buffer`, whose content is `b`. -/
  | spawn (addr : UDPAddr) (authority : RR) (buffer : Nat) (b : Bytes)
  /-- Call `os.Exit(1)`. -/
  | osExit
  /-- The deferred `udpListen.Close()`. -/
  | Close
  /-- The deferred `wg.Done()` of line 35. -/
  | wgDone
  deriving DecidableEq, Repr

/-- Where control goes after one pass of the loop body. -/
inductive Next where
  /-- The next iteration of `for`, by `continue` or at the end of the body:
  line 58 allocates a new buffer. -/
  | forLoop
  /-- The label `mainLoop`, by `goto`: the buffer is kept. -/
  | mainLoop
  /-- The `return` of line 74. -/
  | returned
  /-- The process has exited. -/
  | exited
  deriving DecidableEq, Repr

/-- One pass of lines 60-88, from the label `mainLoop`, reading into buffer
number `buffer`: `r` is what the two calls meet and `systemShutdown` the value
a load of the flag sees during this pass. -/
def mainLoopPass (authority : RR) (buffer : Nat) (r : ReadResult) (systemShutdown : Int) :
    List StartEvent × Next :=
  match r with
  | .deadlineError => ([.SetReadDeadline, .osExit], .exited)
  | .timeout =>
    if systemShutdown = 0 then
      ([.SetReadDeadline, .ReadFromUDP buffer, .LoadShutdown], .mainLoop)
    else
      ([.SetReadDeadline, .ReadFromUDP buffer, .LoadShutdown], .returned)
  | .otherError => ([.SetReadDeadline, .ReadFromUDP buffer], .forLoop)
  | .datagram addr b =>
    ([.SetReadDeadline, .ReadFromUDP buffer, .wgAdd, .spawn addr authority buffer b], .forLoop)

/-- The loop of lines 57-89 from the label `mainLoop` with buffer number
`buffer`, run on the passes listed in `reads`.  The result is the events and
where the loop stands after them: `mainLoop` when it is still running. -/
def mainLoop (authority : RR) : Nat → List (ReadResult × Int) → List StartEvent × Next
  | _, [] => ([], .mainLoop)
  | buffer, (r, systemShutdown) :: reads =>
    match mainLoopPass authority buffer r systemShutdown with
    | (events, .mainLoop) =>
      let (more, next) := mainLoop authority buffer reads
      (events ++ more, next)
    | (events, .forLoop) =>
      let (more, next) := mainLoop authority (buffer + 1) reads
      (events ++ [.make (buffer + 1)] ++ more, next)
    | (events, next) => (events, next)

/-- Method `Start` (lines 34-90).  `resolveErr` and `listenErr` are the errors
of `net.ResolveUDPAddr` and `net.ListenUDP`.  The deferred calls run on
`return`, not on `os.Exit`. -/
def Start (E : Env) (d : DNSServer) (resolveErr listenErr : error)
    (reads : List (ReadResult × Int)) : List StartEvent :=
  let rr := d.hostname ++ " 86400 IN NS ".toList ++ d.nameserver
  match E.NewRR rr with
  | .error _ => [.wgDone]
  | .ok authority =>
    if resolveErr ≠ none then [.wgDone]
    else if listenErr ≠ none then [.wgDone]
    else
      match mainLoop authority 1 reads with
      | (events, .returned) => [.make 1] ++ events ++ [.Close, .wgDone]
      | (events, _) => [.make 1] ++ events

/-! ## Listener and workers together -/

/-- The counter `wg`, the workers spawned and not yet finished, and where the
listener stands. -/
structure System where
  next : Next
  buffer : Nat
  counter : Int
  inFlight : List (UDPAddr × RR × Bytes)
  deriving DecidableEq, Repr

/-- The effect of one event of the listener on the counter and the workers. -/
def System.listen (s : System) : StartEvent → System
  | .wgAdd => { s with counter := s.counter + 1 }
  | .spawn addr authority _ b => { s with inFlight := s.inFlight ++ [(addr, authority, b)] }
  | .wgDone => { s with counter := s.counter - 1 }
  | _ => s

/-- The listener makes one pass, when it is still running.  The `return` of
line 74 runs the deferred calls of `Start`: `udpListen.Close()` (line 55) and
`wg.Done()` (line 35). -/
def System.pass (authority : RR) (s : System) (r : ReadResult) (systemShutdown : Int) : System :=
  match s.next with
  | .returned => s
  | .exited => s
  | _ =>
    match mainLoopPass authority s.buffer r systemShutdown with
    | (events, .forLoop) =>
      { events.foldl System.listen s with next := .mainLoop, buffer := s.buffer + 1 }
    | (events, .returned) =>
      { (events ++ [StartEvent.Close, StartEvent.wgDone]).foldl System.listen s with
        next := .returned }
    | (events, next) => { events.foldl System.listen s with next := next }

/-- The worker at position `i` runs `handleDNSRequest` and finishes: each
`wgDone` of its trace decrements the counter. -/
def System.finish (E : Env) (d : DNSServer) (s : System) (i : Nat) : System :=
  match s.inFlight[i]? with
  | none => s
  | some (addr, authority, b) =>
    { s with
      counter := s.counter - ((handleDNSRequest E d addr authority b).count Event.wgDone : Nat),
      inFlight := s.inFlight.eraseIdx i }

/-- One step of the whole: a pass of the listener or the end of a worker. -/
inductive Action where
  | pass (r : ReadResult) (systemShutdown : Int)
  | finish (i : Nat)
  deriving DecidableEq, Repr

/-- The steps of a schedule, in order. -/
def System.run (E : Env) (d : DNSServer) (authority : RR) (s : System) (actions : List Action) :
    System :=
  actions.foldl (fun s a =>
    match a with
    | .pass r systemShutdown => s.pass authority r systemShutdown
    | .finish i => s.finish E d i) s

/-- The counter, less the number of workers in flight, plus one once the
listener has returned and its deferred `wg.Done()` has run. -/
def System.balance (s : System) : Int :=
  s.counter - s.inFlight.length + (if s.next = .returned then 1 else 0)

/-- The worker an event of the listener starts. -/
def StartEvent.worker? : StartEvent → Option (UDPAddr × RR × Bytes)
  | .spawn addr authority _ b => some (addr, authority, b)
  | _ => none

/-- The deferred calls the listener runs when its loop has returned. -/
def deferredCalls : Next → List StartEvent
  | .returned => [.Close, .wgDone]
  | _ => []

/-- The schedule in which the listener alone makes the passes of `reads`. -/
def passesOf (reads : List (ReadResult × Int)) : List Action :=
  reads.map (fun x => Action.pass x.1 x.2)

/-- The pass reads a datagram. -/
def ReadResult.isDatagram : ReadResult → Bool
  | .datagram _ _ => true
  | _ => false

/-- The event is a call of `spawn`. -/
def StartEvent.isSpawn : StartEvent → Bool
  | .spawn _ _ _ _ => true
  | _ => false

/-- The two sample senders and datagrams of the listener examples. -/
def exReads : List (ReadResult × Int) :=
  [(.timeout, 0), (.datagram exAddr exDatagramA, 1), (.otherError, 1),
    (.datagram exAddr exDatagramMX, 0), (.timeout, 1), (.datagram exAddr exDatagramA, 1)]

/-- The addresses the answer records of an A or AAAA response are built from:
for AAAA the placeholder stands in when the Address Source returns none. -/
def servedAddresses (qtype : Nat) (addrs : List NetAddress) : List NetAddress :=
  if qtype = TypeAAAA then aaaaAddresses addrs else addrs

/-- A name in the form the DNS codec writes: the root name `.`, or a name
that starts with a character of its first label (a dot that belongs to a
label is written after a backslash, so the name does not start with a dot). -/
def CodecName (s : GoString) : Prop := s = ['.'] ∨ ∃ c cs, s = c :: cs ∧ c ≠ '.'

/-- The property of `Unpack` used by the extractor: every question name of an
unpacked message is a codec name. -/
def UnpacksCodecNames (E : Env) : Prop :=
  ∀ b m, E.Unpack b = .ok m → ∀ q ∈ m.Question, CodecName q.Name

/-- The property of `dns.SplitDomainName` used by the extractor: a name that
does not start with a dot has a first label, and this label is not empty. -/
def SplitsFirstLabel (E : Env) : Prop :=
  ∀ c cs, c ≠ '.' → ∃ l ls, E.SplitDomainName (c :: cs) = l :: ls ∧ l ≠ []

/-! ## Lemmas on the library functions -/

theorem infix_iff_exists_drop (sub s : GoString) :
    sub <:+: s ↔ ∃ i, i ≤ s.length ∧ sub <+: s.drop i := by
  constructor
  · rintro ⟨pre, suf, rfl⟩
    refine ⟨pre.length, by simp, ?_⟩
    simp [List.append_assoc]
  · rintro ⟨i, _, suf, hsuf⟩
    refine ⟨s.take i, suf, ?_⟩
    rw [List.append_assoc, hsuf, List.take_append_drop]

theorem LastIndex_neg_iff (s substr : GoString) :
    LastIndex s substr < 0 ↔ ¬ substr <:+: s := by
  unfold LastIndex
  cases hfind : (List.range (s.length + 1)).reverse.find?
      (fun i => substr.isPrefixOf (s.drop i)) with
  | none =>
    simp only [Int.reduceNeg, Int.reduceLT, true_iff]
    rw [List.find?_eq_none] at hfind
    rw [infix_iff_exists_drop]
    rintro ⟨i, hi, hpre⟩
    exact hfind i (by simp; omega) (by simpa using hpre)
  | some i =>
    have hp := List.find?_some hfind
    simp only [List.isPrefixOf_iff_prefix] at hp
    have hinf : substr <:+: s := (infix_iff_exists_drop substr s).2
      ⟨min i s.length, by omega, by
        rcases Nat.le_total i s.length with h | h
        · simpa [Nat.min_eq_left h] using hp
        · rw [Nat.min_eq_right h]
          rw [List.drop_of_length_le h] at hp
          simpa using hp⟩
    simp only [hinf, not_true_eq_false, iff_false, not_lt]
    exact Int.ofNat_nonneg i

/-! ## Lemmas on the stages -/

/-- The extractor, branch by branch. -/
theorem extractSubnetworkID_eq (E : Env) (d : DNSServer) (addr : UDPAddr) (n : GoString) :
    extractSubnetworkID E d addr n =
      if d.hostname = n then some (none, true, none)
      else
        match E.SplitDomainName n with
        | [] => none
        | [] :: _ => none
        | (c :: rest) :: _ =>
          if c = E.SubnetworkIDPrefixChar then
            if rest = [] then some (none, false, none)
            else if (E.FromString rest).2 = none then some (none, false, none)
            else some ((E.FromString rest).1, false, (E.FromString rest).2)
          else some (none, true, none) := by
  unfold extractSubnetworkID
  by_cases h : d.hostname = n
  · simp [h]
  · simp only [ne_eq, h, not_false_eq_true, if_true, if_false]
    rcases hs : E.SplitDomainName n with _ | ⟨l, ls⟩
    · simp
    · rcases l with _ | ⟨c, rest⟩
      · simp
      · by_cases hc : c = E.SubnetworkIDPrefixChar
        · by_cases hr : rest = []
          · simp [hc, hr]
          · rcases hf : E.FromString rest with ⟨i, e⟩
            cases e <;> simp [hc, hr, hf]
        · simp [hc]

/-- Whenever the extractor returns without error, the identifier it returns
is nil: the identifier parsed on line 119 lives in the inner block only. -/
theorem extractSubnetworkID_nil_of_no_error (E : Env) (d : DNSServer) (addr : UDPAddr)
    (n : GoString) (id : Option DomainSubnetworkID) (incl : Bool)
    (h : extractSubnetworkID E d addr n = some (id, incl, none)) : id = none := by
  rw [extractSubnetworkID_eq] at h
  split at h
  · simp at h; exact h.1.symm
  · split at h
    · simp at h
    · simp at h
    · split at h
      · split at h
        · simp at h; exact h.1.symm
        · split at h
          · simp at h; exact h.1.symm
          · rename_i hne
            simp at h
            exact absurd h.2.2 hne
      · simp at h; exact h.1.symm

/-- The type translation on a message with a first question. -/
theorem translateDNSQuestion_eq (addr : UDPAddr) (m : Msg) (q : Question)
    (hq : m.Question[0]? = some q) :
    translateDNSQuestion addr m =
      if q.Qtype = TypeA then some ("A".toList, none)
      else if q.Qtype = TypeAAAA then some ("AAAA".toList, none)
      else if q.Qtype = TypeNS then some ("NS".toList, none)
      else some ([], some (Err.invalidQtype addr q.Qtype)) := by
  unfold translateDNSQuestion
  simp only [hq, Option.bind_eq_bind, Option.some_bind, pure]

/-- The validator on a datagram that unpacks to a message with one question. -/
theorem validateDNSRequest_single (E : Env) (d : DNSServer) (addr : UDPAddr) (b : Bytes)
    (m : Msg) (q : Question) (hm : E.Unpack b = .ok m) (hq : m.Question = [q]) :
    validateDNSRequest E d addr b =
      if ¬ d.hostname <:+: ToLower q.Name then
        some (none, [], [], some (Err.invalidName q.Name))
      else if q.Qtype = TypeA then some (some m, ToLower q.Name, "A".toList, none)
      else if q.Qtype = TypeAAAA then some (some m, ToLower q.Name, "AAAA".toList, none)
      else if q.Qtype = TypeNS then some (some m, ToLower q.Name, "NS".toList, none)
      else some (some m, ToLower q.Name, [], some (Err.invalidQtype addr q.Qtype)) := by
  have hq0 : m.Question[0]? = some q := by simp [hq]
  unfold validateDNSRequest
  simp only [hm, hq0, translateDNSQuestion_eq addr m q hq0, LastIndex_neg_iff]
  simp only [hq, List.length_singleton, ne_eq, not_true_eq_false, if_false]
  split_ifs <;> rfl

/-- The validator on a datagram that unpacks to a message whose number of
questions is not one. -/
theorem validateDNSRequest_count (E : Env) (d : DNSServer) (addr : UDPAddr) (b : Bytes)
    (m : Msg) (hm : E.Unpack b = .ok m) (hq : m.Question.length ≠ 1) :
    validateDNSRequest E d addr b =
      some (none, [], [], some (Err.questionCount addr m.Question.length)) := by
  unfold validateDNSRequest
  simp [hm, hq]

/-- The validator on a datagram that does not unpack. -/
theorem validateDNSRequest_unpack_error (E : Env) (d : DNSServer) (addr : UDPAddr) (b : Bytes)
    (err : Err) (hm : E.Unpack b = .error err) :
    validateDNSRequest E d addr b = some (none, [], [], some err) := by
  unfold validateDNSRequest
  simp [hm]

/-- The validator always returns: it is accepted or rejected, never both. -/
theorem Rejected_iff_not_Accepted (E : Env) (d : DNSServer) (addr : UDPAddr) (b : Bytes) :
    Rejected E d addr b ↔ ¬ Accepted E d addr b := by
  unfold Rejected Accepted
  cases hm : E.Unpack b with
  | error err => simp [validateDNSRequest_unpack_error E d addr b err hm]
  | ok m =>
    by_cases hlen : m.Question.length = 1
    · obtain ⟨q, hq⟩ := List.length_eq_one.1 hlen
      rw [validateDNSRequest_single E d addr b m q hm hq]
      split_ifs <;> simp
    · simp [validateDNSRequest_count E d addr b m hm hlen]

/-- What an accepted datagram looks like. -/
theorem validateDNSRequest_accepted_inv (E : Env) (d : DNSServer) (addr : UDPAddr) (b : Bytes)
    (dnsMsg : Option Msg) (domainName atype : GoString)
    (h : validateDNSRequest E d addr b = some (dnsMsg, domainName, atype, none)) :
    ∃ m q, E.Unpack b = .ok m ∧ dnsMsg = some m ∧ m.Question = [q] ∧
      domainName = ToLower q.Name ∧ d.hostname <:+: ToLower q.Name ∧
      ((q.Qtype = TypeA ∧ atype = "A".toList) ∨ (q.Qtype = TypeAAAA ∧ atype = "AAAA".toList) ∨
        (q.Qtype = TypeNS ∧ atype = "NS".toList)) := by
  cases hm : E.Unpack b with
  | error err =>
    rw [validateDNSRequest_unpack_error E d addr b err hm] at h
    simp at h
  | ok m =>
    by_cases hlen : m.Question.length = 1
    · obtain ⟨q, hq⟩ := List.length_eq_one.1 hlen
      rw [validateDNSRequest_single E d addr b m q hm hq] at h
      refine ⟨m, q, rfl, ?_⟩
      by_cases h1 : d.hostname <:+: ToLower q.Name
      · rw [if_neg (not_not.2 h1)] at h
        by_cases h2 : q.Qtype = TypeA
        · rw [if_pos h2] at h
          simp only [Option.some.injEq, Prod.mk.injEq] at h
          exact ⟨h.1.symm, hq, h.2.1.symm, h1, Or.inl ⟨h2, h.2.2.1.symm⟩⟩
        · rw [if_neg h2] at h
          by_cases h3 : q.Qtype = TypeAAAA
          · rw [if_pos h3] at h
            simp only [Option.some.injEq, Prod.mk.injEq] at h
            exact ⟨h.1.symm, hq, h.2.1.symm, h1, Or.inr (Or.inl ⟨h3, h.2.2.1.symm⟩)⟩
          · rw [if_neg h3] at h
            by_cases h4 : q.Qtype = TypeNS
            · rw [if_pos h4] at h
              simp only [Option.some.injEq, Prod.mk.injEq] at h
              exact ⟨h.1.symm, hq, h.2.1.symm, h1, Or.inr (Or.inr ⟨h4, h.2.2.1.symm⟩)⟩
            · rw [if_neg h4] at h
              simp at h
      · rw [if_pos h1] at h
        simp at h
    · rw [validateDNSRequest_count E d addr b m hm hlen] at h
      simp at h

/-- The text of line 188 is the zone-file line with TTL 30. -/
theorem line188_eq (name atype ip : GoString) :
    name ++ " 30 IN ".toList ++ atype ++ " ".toList ++ ip = zoneLine name 30 atype ip := by
  simp [zoneLine, Nat.toDigits, Nat.toDigitsCore, Nat.digitChar]

/-- The text of lines 37 and 198 is the zone-file line of an NS record with TTL 86400. -/
theorem line198_eq (name nameserver : GoString) :
    name ++ " 86400 IN NS ".toList ++ nameserver =
      zoneLine name 86400 "NS".toList nameserver := by
  simp [zoneLine, Nat.toDigits, Nat.toDigitsCore, Nat.digitChar]

/-- The loop appends one record per address when every record can be built. -/
theorem answerLoop_ok (E : Env) (name atype : GoString) :
    ∀ (addrs : List NetAddress) (rrs answer : List RR),
      List.Forall₂ (fun a rr => IsRecord E name 30 atype (E.IPString a.IP) rr) addrs rrs →
      answerLoop E name atype addrs answer = .ok (answer ++ rrs) := by
  intro addrs
  induction addrs with
  | nil =>
    intro rrs answer h
    cases h
    simp [answerLoop]
  | cons a addrs ih =>
    intro rrs answer h
    cases h with
    | cons ha htl =>
      rename_i rr rrs
      simp only [answerLoop, line188_eq]
      unfold IsRecord at ha
      rw [ha]
      simp only
      rw [ih _ _ htl]
      simp

/-- The loop returns a list only by appending one built record per address. -/
theorem answerLoop_ok_inv (E : Env) (name atype : GoString) :
    ∀ (addrs : List NetAddress) (answer out : List RR),
      answerLoop E name atype addrs answer = .ok out →
      ∃ rrs, out = answer ++ rrs ∧
        List.Forall₂ (fun a rr => IsRecord E name 30 atype (E.IPString a.IP) rr) addrs rrs := by
  intro addrs
  induction addrs with
  | nil =>
    intro answer out h
    simp only [answerLoop, Except.ok.injEq] at h
    exact ⟨[], by simp [h], List.Forall₂.nil⟩
  | cons a addrs ih =>
    intro answer out h
    simp only [answerLoop, line188_eq] at h
    cases hrr : E.NewRR (zoneLine name 30 atype (E.IPString a.IP)) with
    | error err => rw [hrr] at h; simp at h
    | ok rr =>
      rw [hrr] at h
      simp only at h
      obtain ⟨rrs, hout, hall⟩ := ih _ _ h
      exact ⟨rr :: rrs, by simp [hout], List.Forall₂.cons hrr hall⟩

/-- The response message of an NS query. -/
theorem respMsg_NS (E : Env) (d : DNSServer) (addr : UDPAddr) (authority : RR) (m : Msg)
    (q : Question) (includeAll : Bool) (subnetworkID : Option DomainSubnetworkID)
    (atype : GoString) (hq : m.Question[0]? = some q) (hns : q.Qtype = TypeNS) :
    respMsg E d addr authority m includeAll subnetworkID atype =
      match E.NewRR (zoneLine q.Name 86400 "NS".toList d.nameserver) with
      | .error err => ([], some (.error err))
      | .ok rr =>
        ([], some (.ok { m with Authoritative := true, Response := true,
                                Answer := m.Answer ++ [rr] })) := by
  unfold respMsg
  simp only [hq, hns, ne_eq, not_true_eq_false, if_false, line198_eq]

/-- The response message of a query of another type than NS. -/
theorem respMsg_address (E : Env) (d : DNSServer) (addr : UDPAddr) (authority : RR) (m : Msg)
    (q : Question) (includeAll : Bool) (subnetworkID : Option DomainSubnetworkID)
    (atype : GoString) (hq : m.Question[0]? = some q) (hns : q.Qtype ≠ TypeNS) :
    respMsg E d addr authority m includeAll subnetworkID atype =
      ([Event.GoodAddresses q.Qtype includeAll subnetworkID],
        match answerLoop E q.Name atype
          (if E.GoodAddresses q.Qtype includeAll subnetworkID = [] ∧ q.Qtype = TypeAAAA then
            [{ IP := placeholderIP, Port := 0 }]
           else E.GoodAddresses q.Qtype includeAll subnetworkID) m.Answer with
        | .error err => some (.error err)
        | .ok answer =>
          some (.ok { m with Authoritative := true, Response := true,
                             Ns := m.Ns ++ [authority], Answer := answer })) := by
  unfold respMsg
  simp only [hq, hns, ne_eq, not_false_eq_true, if_true, List.length_eq_zero]
  by_cases hk : E.GoodAddresses q.Qtype includeAll subnetworkID = [] ∧ q.Qtype = TypeAAAA
  · simp only [hk, and_self, if_true, List.nil_append]
    split <;> simp_all
  · simp only [hk, if_false]
    split <;> simp_all

/-- The calls the response builder makes, and that it returns. -/
theorem buildDNSResponse_events (E : Env) (d : DNSServer) (addr : UDPAddr) (authority : RR)
    (m : Msg) (q : Question) (includeAll : Bool) (subnetworkID : Option DomainSubnetworkID)
    (atype : GoString) (hq : m.Question[0]? = some q) :
    ∃ sendBytes err,
      buildDNSResponse E d addr authority m includeAll subnetworkID atype =
        (if q.Qtype = TypeNS then [] else [Event.GoodAddresses q.Qtype includeAll subnetworkID],
          some (sendBytes, err)) := by
  unfold buildDNSResponse
  by_cases hns : q.Qtype = TypeNS
  · rw [respMsg_NS E d addr authority m q includeAll subnetworkID atype hq hns, if_pos hns]
    cases E.NewRR (zoneLine q.Name 86400 "NS".toList d.nameserver) with
    | error err => exact ⟨_, _, rfl⟩
    | ok rr =>
      simp only
      cases E.Pack _ with
      | error err => exact ⟨_, _, rfl⟩
      | ok bytes => exact ⟨_, _, rfl⟩
  · rw [respMsg_address E d addr authority m q includeAll subnetworkID atype hq hns, if_neg hns]
    cases answerLoop E q.Name atype _ m.Answer with
    | error err => exact ⟨_, _, rfl⟩
    | ok answer =>
      simp only
      cases E.Pack _ with
      | error err => exact ⟨_, _, rfl⟩
      | ok bytes => exact ⟨_, _, rfl⟩

/-- A rejected datagram: the worker stops after the validator. -/
theorem handleDNSRequest_of_rejected (E : Env) (d : DNSServer) (addr : UDPAddr)
    (authority : RR) (b : Bytes) (dnsMsg : Option Msg) (domainName atype : GoString) (err : Err)
    (hv : validateDNSRequest E d addr b = some (dnsMsg, domainName, atype, some err)) :
    handleDNSRequest E d addr authority b = [.call .validateDNSRequest, .wgDone] := by
  simp [handleDNSRequest, handleDNSRequestBody, hv]

/-- An extractor error: the worker stops after the extractor. -/
theorem handleDNSRequest_of_extract_error (E : Env) (d : DNSServer) (addr : UDPAddr)
    (authority : RR) (b : Bytes) (dnsMsg : Option Msg) (domainName atype : GoString)
    (id : Option DomainSubnetworkID) (incl : Bool) (err : Err)
    (hv : validateDNSRequest E d addr b = some (dnsMsg, domainName, atype, none))
    (he : extractSubnetworkID E d addr domainName = some (id, incl, some err)) :
    handleDNSRequest E d addr authority b =
      [.call .validateDNSRequest, .call .extractSubnetworkID, .wgDone] := by
  simp [handleDNSRequest, handleDNSRequestBody, hv, he]

/-- An extractor panic: the worker is left by the panic after the extractor. -/
theorem handleDNSRequest_of_extract_panic (E : Env) (d : DNSServer) (addr : UDPAddr)
    (authority : RR) (b : Bytes) (dnsMsg : Option Msg) (domainName atype : GoString)
    (hv : validateDNSRequest E d addr b = some (dnsMsg, domainName, atype, none))
    (he : extractSubnetworkID E d addr domainName = none) :
    handleDNSRequest E d addr authority b =
      [.call .validateDNSRequest, .call .extractSubnetworkID, .wgDone, .panic] := by
  simp [handleDNSRequest, handleDNSRequestBody, hv, he]

/-- Validator and extractor succeed: the worker calls the builder, and
transmits what it returns when it returns no error. -/
theorem handleDNSRequest_of_build (E : Env) (d : DNSServer) (addr : UDPAddr)
    (authority : RR) (b : Bytes) (m : Msg) (domainName atype : GoString)
    (id : Option DomainSubnetworkID) (incl : Bool) (events : List Event) (sendBytes : Bytes)
    (err : error)
    (hv : validateDNSRequest E d addr b = some (some m, domainName, atype, none))
    (he : extractSubnetworkID E d addr domainName = some (id, incl, none))
    (hb : buildDNSResponse E d addr authority m incl id atype = (events, some (sendBytes, err))) :
    handleDNSRequest E d addr authority b =
      [.call .validateDNSRequest, .call .extractSubnetworkID, .call .buildDNSResponse] ++ events ++
        (if err = none then [.WriteToUDP sendBytes addr] else []) ++ [.wgDone] := by
  obtain ⟨m', q, -, hm', hq, -⟩ := validateDNSRequest_accepted_inv E d addr b _ _ _ hv
  cases hm'
  have hq0 : m.Question[0]? = some q := by simp [hq]
  cases err with
  | none => simp [handleDNSRequest, handleDNSRequestBody, hv, he, hq0, hb]
  | some e => simp [handleDNSRequest, handleDNSRequestBody, hv, he, hq0, hb]

/-- A datagram that unpacks is accepted exactly when its message has one
question, whose lowercased name contains the hostname and whose type is
supported. -/
theorem Accepted_iff (E : Env) (d : DNSServer) (addr : UDPAddr) (b : Bytes) :
    ∀ m, E.Unpack b = .ok m →
      (Accepted E d addr b ↔
        ∃ q, m.Question = [q] ∧ d.hostname <:+: ToLower q.Name ∧ SupportedType q.Qtype) := by
  intro m hm
  constructor
  · rintro ⟨dnsMsg, domainName, atype, h⟩
    obtain ⟨m', q, hm', -, hq, -, hsub, hty⟩ :=
      validateDNSRequest_accepted_inv E d addr b _ _ _ h
    rw [hm] at hm'
    cases hm'
    refine ⟨q, hq, hsub, ?_⟩
    rcases hty with h1 | h1 | h1
    · exact Or.inl h1.1
    · exact Or.inr (Or.inl h1.1)
    · exact Or.inr (Or.inr h1.1)
  · rintro ⟨q, hq, hsub, hty⟩
    unfold Accepted
    rw [validateDNSRequest_single E d addr b m q hm hq, if_neg (not_not.2 hsub)]
    by_cases h2 : q.Qtype = TypeA
    · rw [if_pos h2]; exact ⟨_, _, _, rfl⟩
    · rw [if_neg h2]
      by_cases h3 : q.Qtype = TypeAAAA
      · rw [if_pos h3]; exact ⟨_, _, _, rfl⟩
      · rw [if_neg h3]
        by_cases h4 : q.Qtype = TypeNS
        · rw [if_pos h4]; exact ⟨_, _, _, rfl⟩
        · rcases hty with h | h | h <;> contradiction

/-! ## The claims -/

/-- C1 (defect of the code).  The claim: for a question name
`<marker><identifier>.hostname` whose identifier the parser accepts with
result `id`, the extractor returns `id` and the Address Source is called with
`(queryType, false, id)`.  The code at the name `n03000…00.seed.example.com.`:
the parser accepts the identifier, yet the extractor returns a nil identifier
with `includeAll = false` and no error, and the worker calls the Address
Source with `(A, false, nil)`. -/
theorem extractSubnetworkID_loses_parsed_identifier :
    (refEnv [] noPeers).FromString exSubnetworkText = (some exSubnetworkID, none) ∧
    (refEnv [] noPeers).SplitDomainName exSubnetworkName =
      ['n' :: exSubnetworkText, "seed".toList, "example".toList, "com".toList] ∧
    extractSubnetworkID (refEnv [] noPeers) exServer exAddr exSubnetworkName =
      some (none, false, none) ∧
    handleDNSRequest
        (refEnv [(exSubnetworkDatagram, queryMsg 7 exSubnetworkName TypeA)] twoPeers)
        exServer exAddr exAuthority exSubnetworkDatagram =
      [.call .validateDNSRequest, .call .extractSubnetworkID, .call .buildDNSResponse,
        .GoodAddresses TypeA false none,
        .WriteToUDP [0, 7, 133, 0, 0, 1, 0, 2, 0, 1, 0, 0] exAddr, .wgDone] := by
  refine ⟨by rfl, by rfl, by rfl, by rfl⟩

/-- C2.  For a datagram that unpacks to a message `m`, the validator returns
no error if and only if `m` has exactly one question, the hostname occurs in
the lowercased question name and the question type is A, AAAA or NS.  So a
message whose number of questions is not one is rejected, a message whose
first question has another type is rejected, and a datagram that does not
unpack is rejected; rejected means exactly not accepted. -/
theorem validateDNSRequest_accepts_iff (E : Env) (d : DNSServer) (addr : UDPAddr) (b : Bytes) :
    (∀ m, E.Unpack b = .ok m →
      (Accepted E d addr b ↔
        ∃ q, m.Question = [q] ∧ d.hostname <:+: ToLower q.Name ∧ SupportedType q.Qtype) ∧
      (m.Question.length ≠ 1 → Rejected E d addr b) ∧
      (∀ q, m.Question[0]? = some q → ¬ SupportedType q.Qtype → Rejected E d addr b)) ∧
    (∀ err, E.Unpack b = .error err → Rejected E d addr b) ∧
    (Rejected E d addr b ↔ ¬ Accepted E d addr b) := by
  have hiff := Accepted_iff E d addr b
  refine ⟨fun m hm => ⟨hiff m hm, ?_, ?_⟩, ?_, Rejected_iff_not_Accepted E d addr b⟩
  · intro hlen
    exact ⟨_, _, _, _, validateDNSRequest_count E d addr b m hm hlen⟩
  · intro q hq hty
    rw [Rejected_iff_not_Accepted, hiff m hm]
    rintro ⟨q', hq', -, hty'⟩
    rw [hq'] at hq
    simp only [List.getElem?_cons_zero, Option.some.injEq] at hq
    exact hty (hq ▸ hty')
  · intro err herr
    exact ⟨_, _, _, _, validateDNSRequest_unpack_error E d addr b err herr⟩

/-- C2 at concrete datagrams: the type A query for `seed.example.com.` unpacks
to a one-question message and is accepted by the server of the examples; the
type MX query for the same name is rejected. -/
theorem validateDNSRequest_accepts_iff_witness :
    (refEnv [(exDatagramA, queryMsg 4660 exName TypeA)] noPeers).Unpack exDatagramA =
      .ok (queryMsg 4660 exName TypeA) ∧
    Accepted (refEnv [(exDatagramA, queryMsg 4660 exName TypeA)] noPeers)
      exServer exAddr exDatagramA ∧
    Rejected (refEnv [(exDatagramMX, queryMsg 21 exName TypeMX)] noPeers)
      exServer exAddr exDatagramMX :=
  ⟨by rfl,
    ((validateDNSRequest_accepts_iff (refEnv [(exDatagramA, queryMsg 4660 exName TypeA)] noPeers)
        exServer exAddr exDatagramA).1 (queryMsg 4660 exName TypeA) (by rfl)).1.2
      ⟨{ Name := exName, Qtype := TypeA, Qclass := 1 }, rfl, ⟨[], [], by rfl⟩, Or.inl rfl⟩,
    ((validateDNSRequest_accepts_iff (refEnv [(exDatagramMX, queryMsg 21 exName TypeMX)] noPeers)
        exServer exAddr exDatagramMX).1 (queryMsg 21 exName TypeMX) (by rfl)).2.2
      { Name := exName, Qtype := TypeMX, Qclass := 1 } (by rfl)
      (by unfold SupportedType; decide)⟩

/-- C3 as stated fails: an NS query whose datagram already carries one answer
record is accepted by the validator, and the response built for it has two
answer records, the carried one and the NS record, not exactly one. -/
theorem buildDNSResponse_NS_carried_answer :
    validateDNSRequest
        (refEnv [(carryingDatagram 11 exLabels TypeNS, carryingMsg 11 exName TypeNS)] noPeers)
        exServer exAddr (carryingDatagram 11 exLabels TypeNS) =
      some (some (carryingMsg 11 exName TypeNS), exName, "NS".toList, none) ∧
    ∃ resp,
      respMsg (refEnv [] noPeers) exServer exAddr exAuthority (carryingMsg 11 exName TypeNS)
          true none "NS".toList = ([], some (.ok resp)) ∧
      resp.Answer = [carriedRR, exNSRecord] ∧ resp.Answer.length ≠ 1 ∧
      buildDNSResponse (refEnv [] noPeers) exServer exAddr exAuthority
          (carryingMsg 11 exName TypeNS) true none "NS".toList =
        ([], some ([0, 11, 133, 0, 0, 1, 0, 2, 0, 0, 0, 0], none)) :=
  ⟨by rfl, nsResponse (carryingMsg 11 exName TypeNS) exNSRecord, by rfl, by rfl, by decide,
    by rfl⟩

/-- C3, amended.  For every message whose first question has type NS, whatever
the filter, the Address Source and the rest of the message: when `dns.NewRR`
builds the record `rr` for owner = the queried name, TTL 86400, type NS and
target = the configured nameserver, the response message is the inbound
message with the two flags set and exactly that one record appended to the
answer section it arrived with (so exactly one answer record when the query
carried none); nothing is appended to the authority section, the Address
Source is not called, and the bytes returned are the packed response. -/
theorem buildDNSResponse_NS (E : Env) (d : DNSServer) (addr : UDPAddr) (authority : RR)
    (m : Msg) (q : Question) (includeAll : Bool) (subnetworkID : Option DomainSubnetworkID)
    (atype : GoString) (rr : RR)
    (hq : m.Question[0]? = some q) (hns : q.Qtype = TypeNS)
    (hrr : IsRecord E q.Name 86400 "NS".toList d.nameserver rr) :
    respMsg E d addr authority m includeAll subnetworkID atype =
      ([], some (.ok (nsResponse m rr))) ∧
    (nsResponse m rr).Answer = m.Answer ++ [rr] ∧
    (m.Answer = [] → (nsResponse m rr).Answer = [rr]) ∧
    (nsResponse m rr).Ns = m.Ns ∧
    (buildDNSResponse E d addr authority m includeAll subnetworkID atype).1 = [] ∧
    (∀ sendBytes, E.Pack (nsResponse m rr) = .ok sendBytes →
      buildDNSResponse E d addr authority m includeAll subnetworkID atype =
        ([], some (sendBytes, none))) := by
  have hresp := respMsg_NS E d addr authority m q includeAll subnetworkID atype hq hns
  unfold IsRecord at hrr
  rw [hrr] at hresp
  refine ⟨hresp, rfl, ?_, rfl, ?_, ?_⟩
  · intro h
    simp [nsResponse, h]
  · unfold buildDNSResponse
    rw [hresp]
    show (match E.Pack (nsResponse m rr) with
      | .error err => (([] : List Event), some (([] : Bytes), some err))
      | .ok sendBytes => ([], some (sendBytes, none))).1 = []
    cases E.Pack (nsResponse m rr) <;> rfl
  · intro sendBytes hpack
    unfold buildDNSResponse
    rw [hresp]
    show (match E.Pack (nsResponse m rr) with
      | .error err => (([] : List Event), some (([] : Bytes), some err))
      | .ok sendBytes => ([], some (sendBytes, none))) = _
    rw [hpack]

/-- C3, amended, at the scenario of the specification: the NS query for
`seed.example.com.` gets exactly one answer record, the NS record with TTL
86400 and target `ns.example.com.`, and the Address Source is not called. -/
theorem buildDNSResponse_NS_witness :
    respMsg (refEnv [] twoPeers) exServer exAddr exAuthority (queryMsg 12 exName TypeNS)
        true none "NS".toList =
      ([], some (.ok (nsResponse (queryMsg 12 exName TypeNS) exNSRecord))) ∧
    (nsResponse (queryMsg 12 exName TypeNS) exNSRecord).Answer = [exNSRecord] ∧
    (buildDNSResponse (refEnv [] twoPeers) exServer exAddr exAuthority
        (queryMsg 12 exName TypeNS) true none "NS".toList).1 = [] :=
  have h := buildDNSResponse_NS (refEnv [] twoPeers) exServer exAddr exAuthority
    (queryMsg 12 exName TypeNS) { Name := exName, Qtype := TypeNS, Qclass := 1 } true none
    "NS".toList exNSRecord (by rfl) (by rfl) (by rfl)
  ⟨h.1, h.2.2.1 (by rfl), h.2.2.2.2.1⟩

/-- The builder on a query of type A or AAAA, given the list the loop runs over. -/
theorem respMsg_address_records (E : Env) (d : DNSServer) (addr : UDPAddr) (authority : RR)
    (m : Msg) (q : Question) (includeAll : Bool) (subnetworkID : Option DomainSubnetworkID)
    (atype : GoString) (served : List NetAddress)
    (hq : m.Question[0]? = some q) (hns : q.Qtype ≠ TypeNS)
    (hserved : served =
      if E.GoodAddresses q.Qtype includeAll subnetworkID = [] ∧ q.Qtype = TypeAAAA then
        [{ IP := placeholderIP, Port := 0 }]
      else E.GoodAddresses q.Qtype includeAll subnetworkID) :
    (∀ rrs, List.Forall₂ (fun a rr => IsRecord E q.Name 30 atype (E.IPString a.IP) rr) served rrs →
      respMsg E d addr authority m includeAll subnetworkID atype =
        ([Event.GoodAddresses q.Qtype includeAll subnetworkID],
          some (.ok (addressResponse m authority rrs)))) ∧
    (∀ events resp, respMsg E d addr authority m includeAll subnetworkID atype =
        (events, some (.ok resp)) →
      ∃ rrs, List.Forall₂ (fun a rr => IsRecord E q.Name 30 atype (E.IPString a.IP) rr) served rrs ∧
        resp = addressResponse m authority rrs) := by
  have hresp := respMsg_address E d addr authority m q includeAll subnetworkID atype hq hns
  rw [← hserved] at hresp
  constructor
  · intro rrs hrrs
    rw [hresp, answerLoop_ok E q.Name atype served rrs m.Answer hrrs]
    rfl
  · intro events resp h
    rw [hresp] at h
    cases hloop : answerLoop E q.Name atype served m.Answer with
    | error err => rw [hloop] at h; simp at h
    | ok answer =>
      rw [hloop] at h
      obtain ⟨rrs, hout, hall⟩ := answerLoop_ok_inv E q.Name atype served m.Answer answer hloop
      refine ⟨rrs, hall, ?_⟩
      simp only [Prod.mk.injEq, Option.some.injEq, Except.ok.injEq] at h
      rw [← h.2, hout]
      rfl

/-- The builder packs the response message it has assembled. -/
theorem buildDNSResponse_of_respMsg (E : Env) (d : DNSServer) (addr : UDPAddr) (authority : RR)
    (m : Msg) (includeAll : Bool) (subnetworkID : Option DomainSubnetworkID) (atype : GoString)
    (events : List Event) (resp : Msg) (sendBytes : Bytes)
    (hresp : respMsg E d addr authority m includeAll subnetworkID atype =
      (events, some (.ok resp)))
    (hpack : E.Pack resp = .ok sendBytes) :
    buildDNSResponse E d addr authority m includeAll subnetworkID atype =
      (events, some (sendBytes, none)) := by
  unfold buildDNSResponse
  rw [hresp]
  simp only [hpack]

/-- C4 as stated fails: an AAAA query whose datagram already carries one answer
record is accepted, the Address Source returns no address (k = 0), and the
response has two answer records, not max(k,1) = 1. -/
theorem buildDNSResponse_AAAA_carried_answer :
    validateDNSRequest
        (refEnv [(carryingDatagram 13 exLabels TypeAAAA, carryingMsg 13 exName TypeAAAA)] noPeers)
        exServer exAddr (carryingDatagram 13 exLabels TypeAAAA) =
      some (some (carryingMsg 13 exName TypeAAAA), exName, "AAAA".toList, none) ∧
    (refEnv [] noPeers).GoodAddresses TypeAAAA true none = [] ∧
    ∃ resp,
      respMsg (refEnv [] noPeers) exServer exAddr exAuthority (carryingMsg 13 exName TypeAAAA)
          true none "AAAA".toList = ([.GoodAddresses TypeAAAA true none], some (.ok resp)) ∧
      resp.Answer = [carriedRR, exAnswer TypeAAAA "100::".toList] ∧
      resp.Answer.length ≠ max 0 1 :=
  ⟨by rfl, by rfl,
    addressResponse (carryingMsg 13 exName TypeAAAA) exAuthority [exAnswer TypeAAAA "100::".toList],
    by rfl, by rfl, by decide⟩

/-- C4, amended.  For every message whose first question has type AAAA, with
`k` the number of addresses the Address Source returns: the builder calls the
Address Source once and builds the records from the `k` returned addresses
when `k ≥ 1` and from the placeholder `100::` alone when `k = 0`.  When every
record can be built (`rrs`), the response is the inbound message with the
flags set, the authority record appended and exactly these `max(k,1)` records
appended, in order, to the answer section it arrived with; so the answer
section is never empty, and has exactly `max(k,1)` records when the query
carried none.  Conversely a response is built only in this way. -/
theorem buildDNSResponse_AAAA (E : Env) (d : DNSServer) (addr : UDPAddr) (authority : RR)
    (m : Msg) (q : Question) (includeAll : Bool) (subnetworkID : Option DomainSubnetworkID)
    (atype : GoString) (hq : m.Question[0]? = some q) (h4 : q.Qtype = TypeAAAA) :
    (∀ rrs, List.Forall₂ (fun a rr => IsRecord E q.Name 30 atype (E.IPString a.IP) rr)
        (aaaaAddresses (E.GoodAddresses TypeAAAA includeAll subnetworkID)) rrs →
      respMsg E d addr authority m includeAll subnetworkID atype =
        ([Event.GoodAddresses TypeAAAA includeAll subnetworkID],
          some (.ok (addressResponse m authority rrs))) ∧
      (addressResponse m authority rrs).Answer = m.Answer ++ rrs ∧
      rrs.length = max (E.GoodAddresses TypeAAAA includeAll subnetworkID).length 1 ∧
      (addressResponse m authority rrs).Answer ≠ [] ∧
      (m.Answer = [] → (addressResponse m authority rrs).Answer.length =
        max (E.GoodAddresses TypeAAAA includeAll subnetworkID).length 1) ∧
      (∀ sendBytes, E.Pack (addressResponse m authority rrs) = .ok sendBytes →
        buildDNSResponse E d addr authority m includeAll subnetworkID atype =
          ([Event.GoodAddresses TypeAAAA includeAll subnetworkID], some (sendBytes, none)))) ∧
    (∀ events resp, respMsg E d addr authority m includeAll subnetworkID atype =
        (events, some (.ok resp)) →
      ∃ rrs, List.Forall₂ (fun a rr => IsRecord E q.Name 30 atype (E.IPString a.IP) rr)
          (aaaaAddresses (E.GoodAddresses TypeAAAA includeAll subnetworkID)) rrs ∧
        resp = addressResponse m authority rrs) ∧
    (aaaaAddresses (E.GoodAddresses TypeAAAA includeAll subnetworkID) =
        [{ IP := placeholderIP, Port := 0 }] ↔
      (E.GoodAddresses TypeAAAA includeAll subnetworkID = [] ∨
        E.GoodAddresses TypeAAAA includeAll subnetworkID = [{ IP := placeholderIP, Port := 0 }])) ∧
    (E.GoodAddresses TypeAAAA includeAll subnetworkID ≠ [] →
      aaaaAddresses (E.GoodAddresses TypeAAAA includeAll subnetworkID) =
        E.GoodAddresses TypeAAAA includeAll subnetworkID) := by
  have hns : q.Qtype ≠ TypeNS := by rw [h4]; decide
  have hserved : aaaaAddresses (E.GoodAddresses TypeAAAA includeAll subnetworkID) =
      if E.GoodAddresses q.Qtype includeAll subnetworkID = [] ∧ q.Qtype = TypeAAAA then
        [{ IP := placeholderIP, Port := 0 }]
      else E.GoodAddresses q.Qtype includeAll subnetworkID := by
    simp [aaaaAddresses, h4]
  have hrec := respMsg_address_records E d addr authority m q includeAll subnetworkID atype
    _ hq hns hserved
  rw [h4] at hrec
  have hlen : ∀ rrs : List RR,
      List.Forall₂ (fun a rr => IsRecord E q.Name 30 atype (E.IPString a.IP) rr)
        (aaaaAddresses (E.GoodAddresses TypeAAAA includeAll subnetworkID)) rrs →
      rrs.length = max (E.GoodAddresses TypeAAAA includeAll subnetworkID).length 1 := by
    intro rrs hrrs
    rw [← hrrs.length_eq]
    unfold aaaaAddresses
    cases hk : E.GoodAddresses TypeAAAA includeAll subnetworkID with
    | nil => simp
    | cons a as => simp
  refine ⟨fun rrs hrrs => ⟨hrec.1 rrs hrrs, rfl, hlen rrs hrrs, ?_, ?_, ?_⟩, hrec.2, ?_, ?_⟩
  · have h1 := hlen rrs hrrs
    have h2 : rrs ≠ [] := by
      intro h
      rw [h] at h1
      simp at h1
      omega
    simp [addressResponse, h2]
  · intro h
    simp [addressResponse, h, hlen rrs hrrs]
  · intro sendBytes hpack
    exact buildDNSResponse_of_respMsg E d addr authority m includeAll subnetworkID atype _ _ _
      (hrec.1 rrs hrrs) hpack
  · unfold aaaaAddresses
    cases hk : E.GoodAddresses TypeAAAA includeAll subnetworkID with
    | nil => simp
    | cons a as => simp
  · intro h
    simp [aaaaAddresses, h]

/-- C4, amended, at the scenario of the specification: the AAAA query for
`seed.example.com.` with an empty Address Source gets one authority record and
one answer record, the placeholder `100::`. -/
theorem buildDNSResponse_AAAA_witness :
    respMsg (refEnv [] noPeers) exServer exAddr exAuthority (queryMsg 14 exName TypeAAAA)
        true none "AAAA".toList =
      ([Event.GoodAddresses TypeAAAA true none],
        some (.ok (addressResponse (queryMsg 14 exName TypeAAAA) exAuthority
          [exAnswer TypeAAAA "100::".toList]))) ∧
    (addressResponse (queryMsg 14 exName TypeAAAA) exAuthority
        [exAnswer TypeAAAA "100::".toList]).Answer = [exAnswer TypeAAAA "100::".toList] ∧
    (addressResponse (queryMsg 14 exName TypeAAAA) exAuthority
        [exAnswer TypeAAAA "100::".toList]).Ns = [exAuthority] :=
  have h := (buildDNSResponse_AAAA (refEnv [] noPeers) exServer exAddr exAuthority
    (queryMsg 14 exName TypeAAAA) { Name := exName, Qtype := TypeAAAA, Qclass := 1 } true none
    "AAAA".toList (by rfl) (by rfl)).1 [exAnswer TypeAAAA "100::".toList]
    (List.Forall₂.cons (by rfl) List.Forall₂.nil)
  ⟨h.1, by rfl, by rfl⟩

/-- C5 as stated fails: a type A query whose datagram already carries one
answer record is accepted, the Address Source returns k = 2 addresses, and the
response has three answer records, not k. -/
theorem buildDNSResponse_A_carried_answer :
    validateDNSRequest
        (refEnv [(carryingDatagram 15 exLabels TypeA, carryingMsg 15 exName TypeA)] twoPeers)
        exServer exAddr (carryingDatagram 15 exLabels TypeA) =
      some (some (carryingMsg 15 exName TypeA), exName, "A".toList, none) ∧
    ((refEnv [] twoPeers).GoodAddresses TypeA true none).length = 2 ∧
    ∃ resp,
      respMsg (refEnv [] twoPeers) exServer exAddr exAuthority (carryingMsg 15 exName TypeA)
          true none "A".toList = ([.GoodAddresses TypeA true none], some (.ok resp)) ∧
      resp.Answer =
        [carriedRR, exAnswer TypeA "1.2.3.4".toList, exAnswer TypeA "5.6.7.8".toList] ∧
      resp.Answer.length ≠ 2 :=
  ⟨by rfl, by rfl,
    addressResponse (carryingMsg 15 exName TypeA) exAuthority
      [exAnswer TypeA "1.2.3.4".toList, exAnswer TypeA "5.6.7.8".toList],
    by rfl, by rfl, by decide⟩

/-- C5, amended.  For every message whose first question has type A, with `k`
the number of addresses the Address Source returns: the builder calls the
Address Source once and builds one record with TTL 30 per returned address,
never one for a placeholder.  When every record can be built (`rrs`), the
response is the inbound message with the flags set, the authority record
appended and exactly these `k` records appended, in order, to the answer
section it arrived with; so it has exactly `k` answer records when the query
carried none, and for `k = 0` the answer section is the one that arrived.
Conversely a response is built only in this way. -/
theorem buildDNSResponse_A (E : Env) (d : DNSServer) (addr : UDPAddr) (authority : RR)
    (m : Msg) (q : Question) (includeAll : Bool) (subnetworkID : Option DomainSubnetworkID)
    (atype : GoString) (hq : m.Question[0]? = some q) (hA : q.Qtype = TypeA) :
    (∀ rrs, List.Forall₂ (fun a rr => IsRecord E q.Name 30 atype (E.IPString a.IP) rr)
        (E.GoodAddresses TypeA includeAll subnetworkID) rrs →
      respMsg E d addr authority m includeAll subnetworkID atype =
        ([Event.GoodAddresses TypeA includeAll subnetworkID],
          some (.ok (addressResponse m authority rrs))) ∧
      (addressResponse m authority rrs).Answer = m.Answer ++ rrs ∧
      rrs.length = (E.GoodAddresses TypeA includeAll subnetworkID).length ∧
      (m.Answer = [] → (addressResponse m authority rrs).Answer.length =
        (E.GoodAddresses TypeA includeAll subnetworkID).length) ∧
      (E.GoodAddresses TypeA includeAll subnetworkID = [] →
        (addressResponse m authority rrs).Answer = m.Answer) ∧
      (∀ sendBytes, E.Pack (addressResponse m authority rrs) = .ok sendBytes →
        buildDNSResponse E d addr authority m includeAll subnetworkID atype =
          ([Event.GoodAddresses TypeA includeAll subnetworkID], some (sendBytes, none)))) ∧
    (∀ events resp, respMsg E d addr authority m includeAll subnetworkID atype =
        (events, some (.ok resp)) →
      ∃ rrs, List.Forall₂ (fun a rr => IsRecord E q.Name 30 atype (E.IPString a.IP) rr)
          (E.GoodAddresses TypeA includeAll subnetworkID) rrs ∧
        resp = addressResponse m authority rrs) := by
  have hns : q.Qtype ≠ TypeNS := by rw [hA]; decide
  have hserved : E.GoodAddresses TypeA includeAll subnetworkID =
      if E.GoodAddresses q.Qtype includeAll subnetworkID = [] ∧ q.Qtype = TypeAAAA then
        [{ IP := placeholderIP, Port := 0 }]
      else E.GoodAddresses q.Qtype includeAll subnetworkID := by
    have hne : ¬ q.Qtype = TypeAAAA := by rw [hA]; decide
    rw [if_neg (fun h => hne h.2), hA]
  have hrec := respMsg_address_records E d addr authority m q includeAll subnetworkID atype
    _ hq hns hserved
  rw [hA] at hrec
  refine ⟨fun rrs hrrs => ⟨hrec.1 rrs hrrs, rfl, hrrs.length_eq.symm, ?_, ?_, ?_⟩, hrec.2⟩
  · intro h
    simp [addressResponse, h, hrrs.length_eq]
  · intro h
    rw [h] at hrrs
    cases hrrs
    simp [addressResponse]
  · intro sendBytes hpack
    exact buildDNSResponse_of_respMsg E d addr authority m includeAll subnetworkID atype _ _ _
      (hrec.1 rrs hrrs) hpack

/-- C5, amended, at the scenario of the specification: hostname
`seed.example.com.`, nameserver `ns.example.com.`, a type A query for
`seed.example.com.` and the addresses `1.2.3.4:0`, `5.6.7.8:0` give one NS
authority record and two A answer records with TTL 30. -/
theorem buildDNSResponse_A_witness :
    respMsg (refEnv [] twoPeers) exServer exAddr exAuthority (queryMsg 16 exName TypeA)
        true none "A".toList =
      ([Event.GoodAddresses TypeA true none],
        some (.ok (addressResponse (queryMsg 16 exName TypeA) exAuthority
          [exAnswer TypeA "1.2.3.4".toList, exAnswer TypeA "5.6.7.8".toList]))) ∧
    (addressResponse (queryMsg 16 exName TypeA) exAuthority
        [exAnswer TypeA "1.2.3.4".toList, exAnswer TypeA "5.6.7.8".toList]).Answer =
      [exAnswer TypeA "1.2.3.4".toList, exAnswer TypeA "5.6.7.8".toList] ∧
    (addressResponse (queryMsg 16 exName TypeA) exAuthority
        [exAnswer TypeA "1.2.3.4".toList, exAnswer TypeA "5.6.7.8".toList]).Ns = [exAuthority] ∧
    (exAnswer TypeA "1.2.3.4".toList).Hdr.Ttl = 30 :=
  have h := (buildDNSResponse_A (refEnv [] twoPeers) exServer exAddr exAuthority
    (queryMsg 16 exName TypeA) { Name := exName, Qtype := TypeA, Qclass := 1 } true none
    "A".toList (by rfl) (by rfl)).1
    [exAnswer TypeA "1.2.3.4".toList, exAnswer TypeA "5.6.7.8".toList]
    (List.Forall₂.cons (by rfl) (List.Forall₂.cons (by rfl) List.Forall₂.nil))
  ⟨h.1, by rfl, by rfl, by rfl⟩

/-- C6.  For an accepted question name different from the hostname whose
leftmost label is the marker followed by at least one more character, when
the identifier parser rejects the remainder: the extractor returns the
parser's error with `includeAll = false` (no fallback to `true`), and the
worker stops after the extractor, so it neither calls the Address Source nor
transmits anything. -/
theorem extractSubnetworkID_parse_failure (E : Env) (d : DNSServer) (addr : UDPAddr)
    (authority : RR) (b : Bytes) (dnsMsg : Option Msg) (name atype rest : GoString)
    (labels : List GoString) (id : Option DomainSubnetworkID) (err : Err)
    (hv : validateDNSRequest E d addr b = some (dnsMsg, name, atype, none))
    (hne : name ≠ d.hostname)
    (hsplit : E.SplitDomainName name = (E.SubnetworkIDPrefixChar :: rest) :: labels)
    (hrest : rest ≠ [])
    (hparse : E.FromString rest = (id, some err)) :
    extractSubnetworkID E d addr name = some (id, false, some err) ∧
    handleDNSRequest E d addr authority b =
      [.call .validateDNSRequest, .call .extractSubnetworkID, .wgDone] ∧
    (∀ e ∈ handleDNSRequest E d addr authority b,
      e.isGoodAddresses = false ∧ e.isWrite = false) := by
  have he : extractSubnetworkID E d addr name = some (id, false, some err) := by
    rw [extractSubnetworkID_eq, if_neg (fun h => hne h.symm), hsplit]
    simp [hrest, hparse]
  have hh := handleDNSRequest_of_extract_error E d addr authority b dnsMsg name atype id false
    err hv he
  refine ⟨he, hh, ?_⟩
  rw [hh]
  intro e hmem
  simp only [List.mem_cons, List.mem_singleton, List.not_mem_nil, or_false] at hmem
  rcases hmem with h | h | h <;> subst h <;> exact ⟨rfl, rfl⟩

/-- C6 at a concrete datagram: the type A query for `nzz.seed.example.com.` is
accepted, `zz` is not a subnetwork identifier, and the worker stops after the
extractor. -/
theorem extractSubnetworkID_parse_failure_witness :
    handleDNSRequest (refEnv [(exBadDatagram, queryMsg 17 exBadName TypeA)] twoPeers)
        exServer exAddr exAuthority exBadDatagram =
      [.call .validateDNSRequest, .call .extractSubnetworkID, .wgDone] :=
  (extractSubnetworkID_parse_failure
    (refEnv [(exBadDatagram, queryMsg 17 exBadName TypeA)] twoPeers) exServer exAddr exAuthority
    exBadDatagram (some (queryMsg 17 exBadName TypeA)) exBadName "A".toList "zz".toList
    ["seed".toList, "example".toList, "com".toList] none
    (Err.lib "encoding/hex: invalid byte".toList)
    (by rfl) (by decide) (by rfl) (by decide) (by rfl)).2.1

/-- The response builder never transmits. -/
theorem buildDNSResponse_no_write (E : Env) (d : DNSServer) (addr : UDPAddr) (authority : RR)
    (m : Msg) (q : Question) (includeAll : Bool) (subnetworkID : Option DomainSubnetworkID)
    (atype : GoString) (hq : m.Question[0]? = some q) :
    ∀ e ∈ (buildDNSResponse E d addr authority m includeAll subnetworkID atype).1,
      e.isWrite = false := by
  obtain ⟨sendBytes, err, h⟩ :=
    buildDNSResponse_events E d addr authority m q includeAll subnetworkID atype hq
  rw [h]
  intro e he
  by_cases hns : q.Qtype = TypeNS
  · simp [hns] at he
  · simp only [hns, if_false, List.mem_singleton] at he
    subst he
    rfl

/-- C7.  The worker runs validator, extractor and builder in this order and
stops at the first one that fails.  A rejected datagram: only the validator
is called.  An accepted datagram with an extractor error (or panic): validator
and extractor only.  Validator and extractor succeed: the builder is called,
it returns, and the worker transmits exactly the bytes it returned to the
sender of the datagram when it returned no error, and nothing when it
returned an error.  So there is at most one transmission, and a transmission
of `sendBytes` to `a` happens if and only if `a` is the sender and all three
stages succeed with `sendBytes` the bytes of the builder. -/
theorem handleDNSRequest_pipeline (E : Env) (d : DNSServer) (addr : UDPAddr) (authority : RR)
    (b : Bytes) :
    (Rejected E d addr b →
      handleDNSRequest E d addr authority b = [.call .validateDNSRequest, .wgDone]) ∧
    (∀ dnsMsg domainName atype,
      validateDNSRequest E d addr b = some (dnsMsg, domainName, atype, none) →
      ∃ m, dnsMsg = some m ∧
        (∀ id incl err,
          extractSubnetworkID E d addr domainName = some (id, incl, some err) →
          handleDNSRequest E d addr authority b =
            [.call .validateDNSRequest, .call .extractSubnetworkID, .wgDone]) ∧
        (extractSubnetworkID E d addr domainName = none →
          handleDNSRequest E d addr authority b =
            [.call .validateDNSRequest, .call .extractSubnetworkID, .wgDone, .panic]) ∧
        (∀ id incl, extractSubnetworkID E d addr domainName = some (id, incl, none) →
          ∃ events sendBytes err,
            buildDNSResponse E d addr authority m incl id atype =
              (events, some (sendBytes, err)) ∧
            (∀ e ∈ events, e.isWrite = false) ∧
            (err ≠ none →
              handleDNSRequest E d addr authority b =
                [.call .validateDNSRequest, .call .extractSubnetworkID,
                  .call .buildDNSResponse] ++ events ++ [.wgDone]) ∧
            (err = none →
              handleDNSRequest E d addr authority b =
                [.call .validateDNSRequest, .call .extractSubnetworkID,
                  .call .buildDNSResponse] ++ events ++
                  [.WriteToUDP sendBytes addr, .wgDone]))) ∧
    (handleDNSRequest E d addr authority b).countP Event.isWrite ≤ 1 ∧
    (∀ sendBytes a, Event.WriteToUDP sendBytes a ∈ handleDNSRequest E d addr authority b ↔
      a = addr ∧ ∃ m domainName atype id incl events,
        validateDNSRequest E d addr b = some (some m, domainName, atype, none) ∧
        extractSubnetworkID E d addr domainName = some (id, incl, none) ∧
        buildDNSResponse E d addr authority m incl id atype =
          (events, some (sendBytes, none))) := by
  -- the three stage-by-stage parts
  have hrej : Rejected E d addr b →
      handleDNSRequest E d addr authority b = [.call .validateDNSRequest, .wgDone] := by
    rintro ⟨dnsMsg, domainName, atype, err, hv⟩
    exact handleDNSRequest_of_rejected E d addr authority b dnsMsg domainName atype err hv
  have hacc : ∀ dnsMsg domainName atype,
      validateDNSRequest E d addr b = some (dnsMsg, domainName, atype, none) →
      ∃ m, dnsMsg = some m ∧
        (∀ id incl err,
          extractSubnetworkID E d addr domainName = some (id, incl, some err) →
          handleDNSRequest E d addr authority b =
            [.call .validateDNSRequest, .call .extractSubnetworkID, .wgDone]) ∧
        (extractSubnetworkID E d addr domainName = none →
          handleDNSRequest E d addr authority b =
            [.call .validateDNSRequest, .call .extractSubnetworkID, .wgDone, .panic]) ∧
        (∀ id incl, extractSubnetworkID E d addr domainName = some (id, incl, none) →
          ∃ events sendBytes err,
            buildDNSResponse E d addr authority m incl id atype =
              (events, some (sendBytes, err)) ∧
            (∀ e ∈ events, e.isWrite = false) ∧
            (err ≠ none →
              handleDNSRequest E d addr authority b =
                [.call .validateDNSRequest, .call .extractSubnetworkID,
                  .call .buildDNSResponse] ++ events ++ [.wgDone]) ∧
            (err = none →
              handleDNSRequest E d addr authority b =
                [.call .validateDNSRequest, .call .extractSubnetworkID,
                  .call .buildDNSResponse] ++ events ++
                  [.WriteToUDP sendBytes addr, .wgDone])) := by
    intro dnsMsg domainName atype hv
    obtain ⟨m, q, -, hm, hq, -⟩ := validateDNSRequest_accepted_inv E d addr b _ _ _ hv
    subst hm
    have hq0 : m.Question[0]? = some q := by simp [hq]
    refine ⟨m, rfl, ?_, ?_, ?_⟩
    · intro id incl err he
      exact handleDNSRequest_of_extract_error E d addr authority b _ _ _ id incl err hv he
    · intro he
      exact handleDNSRequest_of_extract_panic E d addr authority b _ _ _ hv he
    · intro id incl he
      obtain ⟨sendBytes, err, hb⟩ :=
        buildDNSResponse_events E d addr authority m q incl id atype hq0
      have hnw := buildDNSResponse_no_write E d addr authority m q incl id atype hq0
      rw [hb] at hnw
      refine ⟨_, sendBytes, err, hb, hnw, ?_, ?_⟩
      · intro herr
        rw [handleDNSRequest_of_build E d addr authority b m domainName atype id incl _
          sendBytes err hv he hb, if_neg herr]
        simp
      · intro herr
        rw [handleDNSRequest_of_build E d addr authority b m domainName atype id incl _
          sendBytes err hv he hb, if_pos herr]
        simp
  refine ⟨hrej, hacc, ?_, ?_⟩
  · -- at most one transmission
    by_cases hA : Accepted E d addr b
    · obtain ⟨dnsMsg, domainName, atype, hv⟩ := hA
      obtain ⟨m, -, h1, h2, h3⟩ := hacc dnsMsg domainName atype hv
      rcases hx : extractSubnetworkID E d addr domainName with _ | ⟨id, incl, err⟩
      · rw [h2 hx]; decide
      · cases err with
        | some err => rw [h1 id incl err hx]; decide
        | none =>
          obtain ⟨events, sendBytes, err, -, hnw, h4, h5⟩ := h3 id incl hx
          have hc : events.countP Event.isWrite = 0 := by
            rw [List.countP_eq_zero]
            intro e he
            simp [hnw e he]
          cases err with
          | some err =>
            rw [h4 (by simp)]
            simp [List.countP_append, List.countP_cons, hc, Event.isWrite]
          | none =>
            rw [h5 rfl]
            simp [List.countP_append, List.countP_cons, hc, Event.isWrite]
    · rw [hrej ((Rejected_iff_not_Accepted E d addr b).2 hA)]
      decide
  · -- a transmission happens exactly on full success
    intro sendBytes a
    constructor
    · intro hmem
      by_cases hA : Accepted E d addr b
      · obtain ⟨dnsMsg, domainName, atype, hv⟩ := hA
        obtain ⟨m, hm, h1, h2, h3⟩ := hacc dnsMsg domainName atype hv
        subst hm
        rcases hx : extractSubnetworkID E d addr domainName with _ | ⟨id, incl, err⟩
        · rw [h2 hx] at hmem
          simp at hmem
        · cases err with
          | some err =>
            rw [h1 id incl err hx] at hmem
            simp at hmem
          | none =>
            obtain ⟨events, sb, err, hb, hnw, h4, h5⟩ := h3 id incl hx
            cases err with
            | some err =>
              rw [h4 (by simp)] at hmem
              simp only [List.mem_append, List.mem_cons, List.mem_singleton, reduceCtorEq,
                List.not_mem_nil, or_false, false_or] at hmem
              have := hnw _ hmem
              simp [Event.isWrite] at this
            | none =>
              rw [h5 rfl] at hmem
              simp only [List.mem_append, List.mem_cons, List.mem_singleton, reduceCtorEq,
                List.not_mem_nil, or_false, false_or, Event.WriteToUDP.injEq] at hmem
              rcases hmem with hmem | ⟨rfl, rfl⟩
              · have := hnw _ hmem
                simp [Event.isWrite] at this
              · exact ⟨rfl, m, domainName, atype, id, incl, events, hv, hx, hb⟩
      · rw [hrej ((Rejected_iff_not_Accepted E d addr b).2 hA)] at hmem
        simp at hmem
    · rintro ⟨rfl, m, domainName, atype, id, incl, events, hv, hx, hb⟩
      rw [handleDNSRequest_of_build E d a authority b m domainName atype id incl events
        sendBytes none hv hx hb]
      simp

/-- C7 at a concrete datagram: the type A query for `seed.example.com.` passes
the three stages, and the worker transmits the bytes of the builder to the
sender. -/
theorem handleDNSRequest_pipeline_witness :
    handleDNSRequest (refEnv [(exDatagramA, queryMsg 4660 exName TypeA)] twoPeers)
        exServer exAddr exAuthority exDatagramA =
      [.call .validateDNSRequest, .call .extractSubnetworkID, .call .buildDNSResponse,
        .GoodAddresses TypeA true none,
        .WriteToUDP [18, 52, 133, 0, 0, 1, 0, 2, 0, 1, 0, 0] exAddr, .wgDone] ∧
    Event.WriteToUDP [18, 52, 133, 0, 0, 1, 0, 2, 0, 1, 0, 0] exAddr ∈
      handleDNSRequest (refEnv [(exDatagramA, queryMsg 4660 exName TypeA)] twoPeers)
        exServer exAddr exAuthority exDatagramA :=
  ⟨by rfl,
    ((handleDNSRequest_pipeline (refEnv [(exDatagramA, queryMsg 4660 exName TypeA)] twoPeers)
      exServer exAddr exAuthority exDatagramA).2.2.2
      [18, 52, 133, 0, 0, 1, 0, 2, 0, 1, 0, 0] exAddr).2
      ⟨rfl, queryMsg 4660 exName TypeA, exName, "A".toList, none, true,
        [.GoodAddresses TypeA true none], by rfl, by rfl, by rfl⟩⟩

/-- The last character, as `NewDNSServer` reads it. -/
theorem getElem?_length_sub_one (s : GoString) : s[s.length - 1]? = s.getLast? :=
  (List.getLast?_eq_getElem? s).symm

/-- C8.  For a non-empty hostname and a non-empty nameserver, `NewDNSServer`
returns a server whose hostname and nameserver end with `.`: each is the input
when the input ends with `.`, and the input followed by one `.` otherwise;
the listen address is the input.  Building a server again from the names of
the server returns the same server. -/
theorem NewDNSServer_normalises (hostname nameserver listen : GoString)
    (hh : hostname ≠ []) (hn : nameserver ≠ []) :
    ∃ d, NewDNSServer hostname nameserver listen = some d ∧
      d.hostname.getLast? = some '.' ∧ d.nameserver.getLast? = some '.' ∧
      (hostname.getLast? = some '.' → d.hostname = hostname) ∧
      (hostname.getLast? ≠ some '.' → d.hostname = hostname ++ ['.']) ∧
      (nameserver.getLast? = some '.' → d.nameserver = nameserver) ∧
      (nameserver.getLast? ≠ some '.' → d.nameserver = nameserver ++ ['.']) ∧
      d.listen = listen ∧
      NewDNSServer d.hostname d.nameserver d.listen = some d := by
  obtain ⟨hl, hhl⟩ : ∃ c, hostname.getLast? = some c := by
    cases h : hostname.getLast? with
    | none => exact absurd (List.getLast?_eq_none_iff.1 h) hh
    | some c => exact ⟨c, rfl⟩
  obtain ⟨nl, hnl⟩ : ∃ c, nameserver.getLast? = some c := by
    cases h : nameserver.getLast? with
    | none => exact absurd (List.getLast?_eq_none_iff.1 h) hn
    | some c => exact ⟨c, rfl⟩
  have key : ∀ (h n : GoString) (hc nc : Char), h.getLast? = some hc → n.getLast? = some nc →
      NewDNSServer h n listen =
        some { hostname := if hc ≠ '.' then h ++ ['.'] else h, listen := listen,
               nameserver := if nc ≠ '.' then n ++ ['.'] else n } := by
    intro h n hc nc h1 h2
    unfold NewDNSServer
    simp only [getElem?_length_sub_one, h1, h2, Option.bind_eq_bind, Option.some_bind, pure]
  have hlast : ∀ (s : GoString) (c : Char), s.getLast? = some c →
      (if c ≠ '.' then s ++ ['.'] else s).getLast? = some '.' := by
    intro s c hs
    by_cases hc : c = '.'
    · simp [hc, hs]
    · simp [hc]
  refine ⟨_, key hostname nameserver hl nl hhl hnl, hlast _ _ hhl, hlast _ _ hnl, ?_, ?_, ?_, ?_,
    rfl, ?_⟩
  · intro h
    rw [hhl] at h
    simp only [Option.some.injEq] at h
    simp [h]
  · intro h
    rw [hhl] at h
    have hc : hl ≠ '.' := fun e => h (by rw [e])
    simp [hc]
  · intro h
    rw [hnl] at h
    simp only [Option.some.injEq] at h
    simp [h]
  · intro h
    rw [hnl] at h
    have hc : nl ≠ '.' := fun e => h (by rw [e])
    simp [hc]
  · rw [key _ _ '.' '.' (hlast _ _ hhl) (hlast _ _ hnl)]
    simp

/-- C8 at concrete names: `seed.example.com` gets its final `.`, and
`ns.example.com.`, which has one, is kept. -/
theorem NewDNSServer_normalises_witness :
    ∃ d, NewDNSServer "seed.example.com".toList "ns.example.com.".toList "0.0.0.0:5354".toList =
        some d ∧
      d.hostname.getLast? = some '.' ∧ d.nameserver.getLast? = some '.' ∧
      ("seed.example.com".toList.getLast? = some '.' → d.hostname = "seed.example.com".toList) ∧
      ("seed.example.com".toList.getLast? ≠ some '.' →
        d.hostname = "seed.example.com".toList ++ ['.']) ∧
      ("ns.example.com.".toList.getLast? = some '.' → d.nameserver = "ns.example.com.".toList) ∧
      ("ns.example.com.".toList.getLast? ≠ some '.' →
        d.nameserver = "ns.example.com.".toList ++ ['.']) ∧
      d.listen = "0.0.0.0:5354".toList ∧
      NewDNSServer d.hostname d.nameserver d.listen = some d :=
  NewDNSServer_normalises "seed.example.com".toList "ns.example.com.".toList
    "0.0.0.0:5354".toList (by decide) (by decide)

/-- C9 as stated fails: `NewDNSServer` keeps the letter case of the hostname
`Seed.Example.com`; the query for `seed.example.com.` contains this hostname
when letter case is ignored on both sides, yet it is rejected, while the same
datagram is accepted by the server whose hostname is written in lower case. -/
theorem validateDNSRequest_hostname_case :
    NewDNSServer "Seed.Example.com".toList "ns.example.com".toList "0.0.0.0:5354".toList =
      some exMixedCaseServer ∧
    ToLower exMixedCaseServer.hostname <:+: ToLower exName ∧
    validateDNSRequest (refEnv [(exDatagramA, queryMsg 4660 exName TypeA)] noPeers)
        exMixedCaseServer exAddr exDatagramA =
      some (none, [], [], some (Err.invalidName exName)) ∧
    ToLower exMixedCaseServer.hostname = exServer.hostname ∧
    validateDNSRequest (refEnv [(exDatagramA, queryMsg 4660 exName TypeA)] noPeers)
        exServer exAddr exDatagramA =
      some (some (queryMsg 4660 exName TypeA), exName, "A".toList, none) :=
  ⟨by rfl, ⟨[], [], by rfl⟩, by rfl, by rfl, by rfl⟩

/-- C9, amended.  For a single-question query of a supported type with name
`q`: when the configured hostname `h` has no upper-case letter (it equals its
lowercased form), the query is accepted if and only if `h` occurs in `q` with
letter case ignored on both sides; and for every hostname, a query that
differs from this one only in the letter case of its name is accepted if and
only if this one is. -/
theorem validateDNSRequest_case_insensitive (E : Env) (d : DNSServer) (addr : UDPAddr)
    (b : Bytes) (m : Msg) (q : Question)
    (hm : E.Unpack b = .ok m) (hq : m.Question = [q]) (hty : SupportedType q.Qtype) :
    (ToLower d.hostname = d.hostname →
      (Accepted E d addr b ↔ ToLower d.hostname <:+: ToLower q.Name)) ∧
    (∀ b' m' q', E.Unpack b' = .ok m' → m'.Question = [q'] → q'.Qtype = q.Qtype →
      ToLower q'.Name = ToLower q.Name → (Accepted E d addr b' ↔ Accepted E d addr b)) := by
  have hacc : ∀ (b : Bytes) (m : Msg) (q : Question), E.Unpack b = .ok m → m.Question = [q] →
      SupportedType q.Qtype → (Accepted E d addr b ↔ d.hostname <:+: ToLower q.Name) := by
    intro b m q hm hq hty
    rw [Accepted_iff E d addr b m hm]
    constructor
    · rintro ⟨q', hq', hsub, -⟩
      rw [hq] at hq'
      simp only [List.cons.injEq, and_true] at hq'
      rw [hq']
      exact hsub
    · intro hsub
      exact ⟨q, hq, hsub, hty⟩
  constructor
  · intro hlow
    rw [hlow]
    exact hacc b m q hm hq hty
  · intro b' m' q' hm' hq' hty' hname
    rw [hacc b m q hm hq hty, hacc b' m' q' hm' hq' (hty' ▸ hty), hname]

/-- C9, amended, at a concrete datagram: the query for `Seed.Example.COM.` is
accepted by the server `seed.example.com.`. -/
theorem validateDNSRequest_case_insensitive_witness :
    Accepted (refEnv [(exUpperDatagram, queryMsg 19 "Seed.Example.COM.".toList TypeA)] noPeers)
      exServer exAddr exUpperDatagram :=
  ((validateDNSRequest_case_insensitive
      (refEnv [(exUpperDatagram, queryMsg 19 "Seed.Example.COM.".toList TypeA)] noPeers)
      exServer exAddr exUpperDatagram (queryMsg 19 "Seed.Example.COM.".toList TypeA)
      { Name := "Seed.Example.COM.".toList, Qtype := TypeA, Qclass := 1 }
      (by rfl) (by rfl) (Or.inl rfl)).1 (by rfl)).2 ⟨[], [], by rfl⟩

/-- C10 as stated fails: the name `seed.example.com.evil.org.` does not end
with the hostname `seed.example.com.`, yet the query is accepted and a
response is transmitted. -/
theorem validateDNSRequest_accepts_non_suffix :
    ¬ exServer.hostname <:+ ToLower exForeignName ∧
    validateDNSRequest (refEnv [(exForeignDatagram, queryMsg 18 exForeignName TypeA)] noPeers)
        exServer exAddr exForeignDatagram =
      some (some (queryMsg 18 exForeignName TypeA), exForeignName, "A".toList, none) ∧
    handleDNSRequest (refEnv [(exForeignDatagram, queryMsg 18 exForeignName TypeA)] noPeers)
        exServer exAddr exAuthority exForeignDatagram =
      [.call .validateDNSRequest, .call .extractSubnetworkID, .call .buildDNSResponse,
        .GoodAddresses TypeA true none,
        .WriteToUDP [0, 18, 133, 0, 0, 1, 0, 0, 0, 1, 0, 0] exAddr, .wgDone] :=
  ⟨by decide, by rfl, by rfl⟩

/-- C10, amended.  A single-question query whose lowercased question name does
not contain the configured hostname as a substring is rejected, and the worker
stops after the validator: nothing is transmitted. -/
theorem validateDNSRequest_rejects_foreign_name (E : Env) (d : DNSServer) (addr : UDPAddr)
    (authority : RR) (b : Bytes) (m : Msg) (q : Question)
    (hm : E.Unpack b = .ok m) (hq : m.Question = [q])
    (hno : ¬ d.hostname <:+: ToLower q.Name) :
    Rejected E d addr b ∧
    handleDNSRequest E d addr authority b = [.call .validateDNSRequest, .wgDone] ∧
    (∀ sendBytes a, Event.WriteToUDP sendBytes a ∉ handleDNSRequest E d addr authority b) := by
  have hv := validateDNSRequest_single E d addr b m q hm hq
  rw [if_pos hno] at hv
  have hh := handleDNSRequest_of_rejected E d addr authority b _ _ _ _ hv
  refine ⟨⟨_, _, _, _, hv⟩, hh, ?_⟩
  intro sendBytes a
  rw [hh]
  simp

/-- C10, amended, at a concrete datagram: the query for `seed.example.org.` is
dropped by the server `seed.example.com.`. -/
theorem validateDNSRequest_rejects_foreign_name_witness :
    handleDNSRequest (refEnv [(exOtherDatagram, queryMsg 20 "seed.example.org.".toList TypeA)]
        twoPeers) exServer exAddr exAuthority exOtherDatagram =
      [.call .validateDNSRequest, .wgDone] :=
  (validateDNSRequest_rejects_foreign_name
    (refEnv [(exOtherDatagram, queryMsg 20 "seed.example.org.".toList TypeA)] twoPeers)
    exServer exAddr exAuthority exOtherDatagram (queryMsg 20 "seed.example.org.".toList TypeA)
    { Name := "seed.example.org.".toList, Qtype := TypeA, Qclass := 1 }
    (by rfl) (by rfl) (by decide)).2.1

/-- C11 (defect of the code).  The claim: on every error the validator returns
a nil message and empty name and type strings.  The code at the type MX query
for `seed.example.com.`: the error of the unsupported type comes back together
with the unpacked message and the lowercased question name; only the type
string is empty.  The three earlier error paths return `nil, "", ""`. -/
theorem validateDNSRequest_partial_result_on_unsupported_type :
    validateDNSRequest (refEnv [(exDatagramMX, queryMsg 21 exName TypeMX)] noPeers)
        exServer exAddr exDatagramMX =
      some (some (queryMsg 21 exName TypeMX), exName, [],
        some (Err.invalidQtype exAddr TypeMX)) :=
  by rfl

/-- C12.  When the builder succeeds on a message `m`, the bytes are the packed
form of a response message that is `m` with the flags Authoritative and
Response set: the same identifier and remaining header fields, the same
question section, the same additional section, and the answer and authority
sections of `m` followed by the appended records. -/
theorem buildDNSResponse_copies_query (E : Env) (d : DNSServer) (addr : UDPAddr)
    (authority : RR) (m : Msg) (includeAll : Bool) (subnetworkID : Option DomainSubnetworkID)
    (atype : GoString) (events : List Event) (sendBytes : Bytes)
    (hb : buildDNSResponse E d addr authority m includeAll subnetworkID atype =
      (events, some (sendBytes, none))) :
    ∃ resp : Msg,
      respMsg E d addr authority m includeAll subnetworkID atype = (events, some (.ok resp)) ∧
      E.Pack resp = .ok sendBytes ∧
      resp.Authoritative = true ∧ resp.Response = true ∧
      resp.Question = m.Question ∧
      resp.Id = m.Id ∧ resp.Opcode = m.Opcode ∧ resp.Truncated = m.Truncated ∧
      resp.RecursionDesired = m.RecursionDesired ∧
      resp.RecursionAvailable = m.RecursionAvailable ∧ resp.Zero = m.Zero ∧
      resp.AuthenticatedData = m.AuthenticatedData ∧
      resp.CheckingDisabled = m.CheckingDisabled ∧ resp.Rcode = m.Rcode ∧
      resp.Compress = m.Compress ∧
      (∃ added, resp.Answer = m.Answer ++ added) ∧
      (∃ added, resp.Ns = m.Ns ++ added) ∧
      resp.Extra = m.Extra := by
  -- the builder returns bytes only by packing the message it has assembled
  have hresp : ∃ resp, respMsg E d addr authority m includeAll subnetworkID atype =
      (events, some (.ok resp)) ∧ E.Pack resp = .ok sendBytes := by
    unfold buildDNSResponse at hb
    rcases hr : respMsg E d addr authority m includeAll subnetworkID atype with ⟨ev, r⟩
    rw [hr] at hb
    rcases r with _ | r
    · simp at hb
    · rcases r with err | resp
      · simp at hb
      · simp only at hb
        cases hp : E.Pack resp with
        | error err => rw [hp] at hb; simp at hb
        | ok bytes =>
          rw [hp] at hb
          simp only [Prod.mk.injEq, Option.some.injEq, and_true] at hb
          exact ⟨resp, by rw [← hb.1], by rw [← hb.2]; exact hp⟩
  obtain ⟨resp, hr, hp⟩ := hresp
  refine ⟨resp, hr, hp, ?_⟩
  -- the message it has assembled
  rcases hq : m.Question[0]? with _ | q
  · unfold respMsg at hr
    simp [hq] at hr
  · by_cases hns : q.Qtype = TypeNS
    · rw [respMsg_NS E d addr authority m q includeAll subnetworkID atype hq hns] at hr
      cases hrr : E.NewRR (zoneLine q.Name 86400 "NS".toList d.nameserver) with
      | error err => rw [hrr] at hr; simp at hr
      | ok rr =>
        rw [hrr] at hr
        simp only [Prod.mk.injEq, Option.some.injEq, Except.ok.injEq] at hr
        rw [← hr.2]
        exact ⟨rfl, rfl, rfl, rfl, rfl, rfl, rfl, rfl, rfl, rfl, rfl, rfl, rfl, ⟨[rr], rfl⟩,
          ⟨[], by simp⟩, rfl⟩
    · obtain ⟨rrs, -, hresp⟩ := (respMsg_address_records E d addr authority m q includeAll
        subnetworkID atype _ hq hns rfl).2 events resp hr
      rw [hresp]
      exact ⟨rfl, rfl, rfl, rfl, rfl, rfl, rfl, rfl, rfl, rfl, rfl, rfl, rfl, ⟨rrs, rfl⟩,
        ⟨[authority], rfl⟩, rfl⟩

/-- C12 at the scenario of the specification: the response to the type A query
for `seed.example.com.` echoes the question and the identifier of the query. -/
theorem buildDNSResponse_copies_query_witness :
    ∃ resp : Msg,
      respMsg (refEnv [] twoPeers) exServer exAddr exAuthority (queryMsg 22 exName TypeA)
          true none "A".toList = ([.GoodAddresses TypeA true none], some (.ok resp)) ∧
      resp.Question = [{ Name := exName, Qtype := TypeA, Qclass := 1 }] ∧ resp.Id = 22 ∧
      resp.Authoritative = true ∧ resp.Response = true :=
  have h := buildDNSResponse_copies_query (refEnv [] twoPeers) exServer exAddr exAuthority
    (queryMsg 22 exName TypeA) true none "A".toList [.GoodAddresses TypeA true none]
    [0, 22, 133, 0, 0, 1, 0, 2, 0, 1, 0, 0] (by rfl)
  h.elim fun resp hr => ⟨resp, hr.1, hr.2.2.2.2.1, hr.2.2.2.2.2.1, hr.2.2.1, hr.2.2.2.1⟩

/-- C13.  When the name equals the hostname the extractor returns
`includeAll = true`, no identifier and no error.  Otherwise its result is
determined by the first label of the name: two names different from the
hostname with the same first label give the same result; a first label that
does not start with the marker gives `includeAll = true` with no identifier,
and the marker alone gives `includeAll = false` with no identifier. -/
theorem extractSubnetworkID_first_label (E : Env) (d : DNSServer) (addr : UDPAddr) :
    extractSubnetworkID E d addr d.hostname = some (none, true, none) ∧
    (∀ n₁ n₂, n₁ ≠ d.hostname → n₂ ≠ d.hostname →
      (E.SplitDomainName n₁)[0]? = (E.SplitDomainName n₂)[0]? →
      extractSubnetworkID E d addr n₁ = extractSubnetworkID E d addr n₂) ∧
    (∀ n c rest labels, n ≠ d.hostname → E.SplitDomainName n = (c :: rest) :: labels →
      c ≠ E.SubnetworkIDPrefixChar → extractSubnetworkID E d addr n = some (none, true, none)) ∧
    (∀ n labels, n ≠ d.hostname →
      E.SplitDomainName n = [E.SubnetworkIDPrefixChar] :: labels →
      extractSubnetworkID E d addr n = some (none, false, none)) := by
  refine ⟨?_, ?_, ?_, ?_⟩
  · rw [extractSubnetworkID_eq, if_pos rfl]
  · intro n₁ n₂ h1 h2 hl
    rw [extractSubnetworkID_eq, extractSubnetworkID_eq, if_neg (fun h => h1 h.symm),
      if_neg (fun h => h2 h.symm)]
    rcases hs1 : E.SplitDomainName n₁ with _ | ⟨l1, ls1⟩ <;>
      rcases hs2 : E.SplitDomainName n₂ with _ | ⟨l2, ls2⟩ <;>
      rw [hs1, hs2] at hl <;> simp at hl
    · subst hl
      rcases l1 with _ | ⟨c, rest⟩ <;> rfl
  · intro n c rest labels hn hs hc
    rw [extractSubnetworkID_eq, if_neg (fun h => hn h.symm), hs]
    simp [hc]
  · intro n labels hn hs
    rw [extractSubnetworkID_eq, if_neg (fun h => hn h.symm), hs]
    simp

/-- C13 at concrete names: `n.seed.example.com.`, whose first label is the
marker alone, gives `includeAll = false` with no identifier, and
`www.seed.example.com.` gives `includeAll = true`. -/
theorem extractSubnetworkID_first_label_witness :
    extractSubnetworkID (refEnv [] noPeers) exServer exAddr "n.seed.example.com.".toList =
      some (none, false, none) ∧
    extractSubnetworkID (refEnv [] noPeers) exServer exAddr "www.seed.example.com.".toList =
      some (none, true, none) :=
  have h := extractSubnetworkID_first_label (refEnv [] noPeers) exServer exAddr
  ⟨h.2.2.2 "n.seed.example.com.".toList ["seed".toList, "example".toList, "com".toList]
      (by decide) (by rfl),
    h.2.2.1 "www.seed.example.com.".toList 'w' "ww".toList
      ["seed".toList, "example".toList, "com".toList] (by decide) (by rfl) (by decide)⟩

/-- Related lists: every element on the left has a partner. -/
theorem forall₂_exists_of_mem {α β : Type} (R : α → β → Prop) :
    ∀ (l₁ : List α) (l₂ : List β), List.Forall₂ R l₁ l₂ → ∀ a ∈ l₁, ∃ b, R a b := by
  intro l₁ l₂ h
  induction h with
  | nil => intro a ha; simp at ha
  | cons hab _ ih =>
    intro a ha
    rcases List.mem_cons.1 ha with rfl | ha
    · exact ⟨_, hab⟩
    · exact ih a ha

/-- The loop fails when a record cannot be built. -/
theorem answerLoop_error (E : Env) (name atype : GoString) (addrs : List NetAddress)
    (answer : List RR)
    (hbad : ∃ a ∈ addrs, ∀ rr, ¬ IsRecord E name 30 atype (E.IPString a.IP) rr) :
    ∃ err, answerLoop E name atype addrs answer = .error err := by
  cases h : answerLoop E name atype addrs answer with
  | error err => exact ⟨err, rfl⟩
  | ok out =>
    obtain ⟨rrs, -, hall⟩ := answerLoop_ok_inv E name atype addrs answer out h
    obtain ⟨a, ha, hno⟩ := hbad
    obtain ⟨rr, hrr⟩ := forall₂_exists_of_mem _ _ _ hall a ha
    exact absurd hrr (hno rr)

/-- Every worker the loop spawns gets the authority record of the loop. -/
theorem mainLoop_spawn_authority (authority : RR) :
    ∀ (reads : List (ReadResult × Int)) (buffer : Nat) (addr : UDPAddr) (auth : RR) (n : Nat)
      (b : Bytes),
      StartEvent.spawn addr auth n b ∈ (mainLoop authority buffer reads).1 → auth = authority := by
  intro reads
  induction reads with
  | nil => intro buffer addr auth n b h; simp [mainLoop] at h
  | cons x reads ih =>
    intro buffer addr auth n b h
    obtain ⟨r, s⟩ := x
    cases r with
    | deadlineError => simp [mainLoop, mainLoopPass] at h
    | otherError =>
      simp only [mainLoop, mainLoopPass] at h
      simp only [List.append_assoc, List.cons_append, List.nil_append, List.mem_cons,
        reduceCtorEq, false_or] at h
      exact ih _ _ _ _ _ h
    | timeout =>
      by_cases hs : s = 0
      · simp only [mainLoop, mainLoopPass, hs, if_true] at h
        simp only [List.cons_append, List.nil_append, List.mem_cons, reduceCtorEq,
          false_or] at h
        exact ih _ _ _ _ _ h
      · simp [mainLoop, mainLoopPass, hs] at h
    | datagram a d =>
      simp only [mainLoop, mainLoopPass] at h
      simp only [List.append_assoc, List.cons_append, List.nil_append, List.mem_cons,
        reduceCtorEq, false_or, StartEvent.spawn.injEq] at h
      rcases h with h | h
      · exact h.2.1
      · exact ih _ _ _ _ _ h

/-- Every worker `Start` spawns gets the record built on lines 37-38. -/
theorem Start_spawn_authority (E : Env) (d : DNSServer) (resolveErr listenErr : error)
    (reads : List (ReadResult × Int)) (addr : UDPAddr) (auth : RR) (n : Nat) (b : Bytes)
    (h : StartEvent.spawn addr auth n b ∈ Start E d resolveErr listenErr reads) :
    IsRecord E d.hostname 86400 "NS".toList d.nameserver auth := by
  unfold Start at h
  simp only [line198_eq] at h
  unfold IsRecord
  cases hrr : E.NewRR (zoneLine d.hostname 86400 "NS".toList d.nameserver) with
  | error err => rw [hrr] at h; simp at h
  | ok authority =>
    rw [hrr] at h
    simp only at h
    by_cases h1 : resolveErr = none
    · by_cases h2 : listenErr = none
      · simp only [h1, h2, ne_eq, not_true_eq_false, if_false] at h
        have key : StartEvent.spawn addr auth n b ∈ (mainLoop authority 1 reads).1 := by
          rcases hl : mainLoop authority 1 reads with ⟨events, next⟩
          rw [hl] at h
          cases next <;> simpa using h
        rw [mainLoop_spawn_authority authority reads 1 addr auth n b key]
      · simp [h1, h2] at h
    · simp [h1] at h

/-- C14 as stated fails: for the AAAA query for `seed.example.com.` the Address
Source returns no address, yet one answer record is appended, the record of
the placeholder `100::`; the appended records are not one per returned
address. -/
theorem buildDNSResponse_AAAA_placeholder_record :
    validateDNSRequest
        (refEnv [(queryDatagram 23 exLabels TypeAAAA, queryMsg 23 exName TypeAAAA)] noPeers)
        exServer exAddr (queryDatagram 23 exLabels TypeAAAA) =
      some (some (queryMsg 23 exName TypeAAAA), exName, "AAAA".toList, none) ∧
    (refEnv [] noPeers).GoodAddresses TypeAAAA true none = [] ∧
    ∃ resp,
      respMsg (refEnv [] noPeers) exServer exAddr exAuthority (queryMsg 23 exName TypeAAAA)
          true none "AAAA".toList = ([.GoodAddresses TypeAAAA true none], some (.ok resp)) ∧
      resp.Answer = (queryMsg 23 exName TypeAAAA).Answer ++ [exAnswer TypeAAAA "100::".toList] ∧
      ([exAnswer TypeAAAA "100::".toList] : List RR).length ≠
        ((refEnv [] noPeers).GoodAddresses TypeAAAA true none).length :=
  ⟨by rfl, by rfl,
    addressResponse (queryMsg 23 exName TypeAAAA) exAuthority [exAnswer TypeAAAA "100::".toList],
    by rfl, by rfl, by decide⟩

/-- C14, amended.  For a validated query of type A or AAAA (`atype` is the type
name the validator gave): the builder calls the Address Source exactly once,
with the query type and the filter it was given, and in the worker these are
the values the extractor returned.  The answer records are built from the
returned addresses, in order, or from the placeholder `100::` alone when the
type is AAAA and no address is returned: the i-th record is what `dns.NewRR`
builds for owner = the question name as received, TTL 30, type = the query
type and data = the text of the i-th address.  When every record can be built
the response has the authority record appended to its authority section and
these records appended to its answer section, and a response is built only in
this way; when a record cannot be built the builder returns an error and no
bytes.  The authority record every worker of `Start` is given is the record
of the server: owner = hostname, TTL 86400, type NS, target = nameserver. -/
theorem buildDNSResponse_address_query (E : Env) (d : DNSServer) (addr : UDPAddr)
    (authority : RR) (m : Msg) (q : Question) (includeAll : Bool)
    (subnetworkID : Option DomainSubnetworkID) (atype : GoString)
    (hq : m.Question[0]? = some q) (hty : q.Qtype = TypeA ∨ q.Qtype = TypeAAAA)
    (hat : translateDNSQuestion addr m = some (atype, none)) :
    ((q.Qtype = TypeA ∧ atype = "A".toList) ∨ (q.Qtype = TypeAAAA ∧ atype = "AAAA".toList)) ∧
    (buildDNSResponse E d addr authority m includeAll subnetworkID atype).1 =
      [Event.GoodAddresses q.Qtype includeAll subnetworkID] ∧
    (∀ b name id incl,
      validateDNSRequest E d addr b = some (some m, name, atype, none) →
      extractSubnetworkID E d addr name = some (id, incl, none) →
      (handleDNSRequest E d addr authority b).filter Event.isGoodAddresses =
        [Event.GoodAddresses q.Qtype incl id]) ∧
    (∀ rrs, List.Forall₂ (fun a rr => IsRecord E q.Name 30 atype (E.IPString a.IP) rr)
        (servedAddresses q.Qtype (E.GoodAddresses q.Qtype includeAll subnetworkID)) rrs →
      respMsg E d addr authority m includeAll subnetworkID atype =
        ([Event.GoodAddresses q.Qtype includeAll subnetworkID],
          some (.ok (addressResponse m authority rrs))) ∧
      (addressResponse m authority rrs).Ns = m.Ns ++ [authority] ∧
      (addressResponse m authority rrs).Answer = m.Answer ++ rrs ∧
      (∀ sendBytes, E.Pack (addressResponse m authority rrs) = .ok sendBytes →
        buildDNSResponse E d addr authority m includeAll subnetworkID atype =
          ([Event.GoodAddresses q.Qtype includeAll subnetworkID], some (sendBytes, none)))) ∧
    (∀ events resp, respMsg E d addr authority m includeAll subnetworkID atype =
        (events, some (.ok resp)) →
      ∃ rrs, List.Forall₂ (fun a rr => IsRecord E q.Name 30 atype (E.IPString a.IP) rr)
          (servedAddresses q.Qtype (E.GoodAddresses q.Qtype includeAll subnetworkID)) rrs ∧
        resp = addressResponse m authority rrs) ∧
    ((∃ a ∈ servedAddresses q.Qtype (E.GoodAddresses q.Qtype includeAll subnetworkID),
        ∀ rr, ¬ IsRecord E q.Name 30 atype (E.IPString a.IP) rr) →
      ∃ err, buildDNSResponse E d addr authority m includeAll subnetworkID atype =
        ([Event.GoodAddresses q.Qtype includeAll subnetworkID], some ([], some err))) ∧
    (∀ resolveErr listenErr reads sender auth buffer b,
      StartEvent.spawn sender auth buffer b ∈ Start E d resolveErr listenErr reads →
      IsRecord E d.hostname 86400 "NS".toList d.nameserver auth) := by
  have hns : q.Qtype ≠ TypeNS := by
    rcases hty with h | h <;> rw [h] <;> decide
  have hserved : servedAddresses q.Qtype (E.GoodAddresses q.Qtype includeAll subnetworkID) =
      if E.GoodAddresses q.Qtype includeAll subnetworkID = [] ∧ q.Qtype = TypeAAAA then
        [{ IP := placeholderIP, Port := 0 }]
      else E.GoodAddresses q.Qtype includeAll subnetworkID := by
    unfold servedAddresses aaaaAddresses
    by_cases h4 : q.Qtype = TypeAAAA
    · by_cases hk : E.GoodAddresses q.Qtype includeAll subnetworkID = [] <;> simp [h4, hk]
    · simp [h4]
  have hrec := respMsg_address_records E d addr authority m q includeAll subnetworkID atype
    _ hq hns hserved
  have hev := buildDNSResponse_events E d addr authority m q includeAll subnetworkID atype hq
  rw [if_neg hns] at hev
  obtain ⟨sb, err, hev⟩ := hev
  have hname : (q.Qtype = TypeA ∧ atype = "A".toList) ∨
      (q.Qtype = TypeAAAA ∧ atype = "AAAA".toList) := by
    rw [translateDNSQuestion_eq addr m q hq] at hat
    rcases hty with h | h
    · rw [if_pos h] at hat
      simp only [Option.some.injEq, Prod.mk.injEq, and_true] at hat
      exact Or.inl ⟨h, hat.symm⟩
    · have hA : ¬ q.Qtype = TypeA := by rw [h]; decide
      rw [if_neg hA, if_pos h] at hat
      simp only [Option.some.injEq, Prod.mk.injEq, and_true] at hat
      exact Or.inr ⟨h, hat.symm⟩
  refine ⟨hname, by rw [hev], ?_, ?_, hrec.2, ?_, ?_⟩
  · intro b name id incl hv he
    obtain ⟨sb', err', hb'⟩ :=
      buildDNSResponse_events E d addr authority m q incl id atype hq
    rw [if_neg hns] at hb'
    rw [handleDNSRequest_of_build E d addr authority b m name atype id incl _ sb' err' hv he hb']
    cases err' <;> simp [List.filter, Event.isGoodAddresses]
  · intro rrs hrrs
    refine ⟨hrec.1 rrs hrrs, rfl, rfl, ?_⟩
    intro sendBytes hpack
    exact buildDNSResponse_of_respMsg E d addr authority m includeAll subnetworkID atype _ _ _
      (hrec.1 rrs hrrs) hpack
  · intro hbad
    obtain ⟨e, he⟩ := answerLoop_error E q.Name atype _ m.Answer hbad
    refine ⟨e, ?_⟩
    unfold buildDNSResponse
    rw [respMsg_address E d addr authority m q includeAll subnetworkID atype hq hns, ← hserved, he]
  · intro resolveErr listenErr reads sender auth buffer b h
    exact Start_spawn_authority E d resolveErr listenErr reads sender auth buffer b h

/-- C14, amended, at the scenario of the specification: for the type A query
for `seed.example.com.` the builder calls the Address Source once with
`(A, true, nil)` and answers with the records of `1.2.3.4` and `5.6.7.8`, in
this order, after the authority record of the server. -/
theorem buildDNSResponse_address_query_witness :
    (buildDNSResponse (refEnv [] twoPeers) exServer exAddr exAuthority
        (queryMsg 24 exName TypeA) true none "A".toList).1 = [.GoodAddresses TypeA true none] ∧
    respMsg (refEnv [] twoPeers) exServer exAddr exAuthority (queryMsg 24 exName TypeA)
        true none "A".toList =
      ([.GoodAddresses TypeA true none],
        some (.ok (addressResponse (queryMsg 24 exName TypeA) exAuthority
          [exAnswer TypeA "1.2.3.4".toList, exAnswer TypeA "5.6.7.8".toList]))) :=
  have h := buildDNSResponse_address_query (refEnv [] twoPeers) exServer exAddr exAuthority
    (queryMsg 24 exName TypeA) { Name := exName, Qtype := TypeA, Qclass := 1 } true none
    "A".toList (by rfl) (Or.inl rfl) (by rfl)
  ⟨h.2.1,
    (h.2.2.2.1 [exAnswer TypeA "1.2.3.4".toList, exAnswer TypeA "5.6.7.8".toList]
      (List.Forall₂.cons (by rfl) (List.Forall₂.cons (by rfl) List.Forall₂.nil))).1⟩

/-- The loop on a first pass that is a timeout with the flag unset: the next
pass reads into the same buffer. -/
theorem mainLoop_timeout_unset (authority : RR) (buffer : Nat) (reads : List (ReadResult × Int)) :
    mainLoop authority buffer ((.timeout, 0) :: reads) =
      ([.SetReadDeadline, .ReadFromUDP buffer, .LoadShutdown] ++
        (mainLoop authority buffer reads).1, (mainLoop authority buffer reads).2) := by
  simp [mainLoop, mainLoopPass]

/-- The loop on a first pass that is a read error other than a timeout: the
next pass reads into a new buffer, and no worker is spawned for the pass. -/
theorem mainLoop_otherError (authority : RR) (buffer : Nat) (s : Int)
    (reads : List (ReadResult × Int)) :
    mainLoop authority buffer ((.otherError, s) :: reads) =
      ([.SetReadDeadline, .ReadFromUDP buffer, .make (buffer + 1)] ++
        (mainLoop authority (buffer + 1) reads).1, (mainLoop authority (buffer + 1) reads).2) := by
  simp [mainLoop, mainLoopPass]

/-- The loop on a first pass that reads a datagram: the worker is spawned
whatever the flag, and the next pass reads into a new buffer. -/
theorem mainLoop_datagram (authority : RR) (buffer : Nat) (addr : UDPAddr) (b : Bytes) (s : Int)
    (reads : List (ReadResult × Int)) :
    mainLoop authority buffer ((.datagram addr b, s) :: reads) =
      ([.SetReadDeadline, .ReadFromUDP buffer, .wgAdd, .spawn addr authority buffer b,
          .make (buffer + 1)] ++ (mainLoop authority (buffer + 1) reads).1,
        (mainLoop authority (buffer + 1) reads).2) := by
  simp [mainLoop, mainLoopPass]

/-- The loop on a first pass that is a timeout with the flag set. -/
theorem mainLoop_timeout_set (authority : RR) (buffer : Nat) (s : Int) (hs : s ≠ 0)
    (reads : List (ReadResult × Int)) :
    mainLoop authority buffer ((.timeout, s) :: reads) =
      ([.SetReadDeadline, .ReadFromUDP buffer, .LoadShutdown], .returned) := by
  simp [mainLoop, mainLoopPass, hs]

/-- The loop on a first pass whose deadline cannot be set. -/
theorem mainLoop_deadlineError (authority : RR) (buffer : Nat) (s : Int)
    (reads : List (ReadResult × Int)) :
    mainLoop authority buffer ((.deadlineError, s) :: reads) =
      ([.SetReadDeadline, .osExit], .exited) := by
  simp [mainLoop, mainLoopPass]

/-- Over read outcomes, the loop has ended exactly when a timeout met the
flag set. -/
theorem mainLoop_ended_iff (authority : RR) :
    ∀ (reads : List (ReadResult × Int)) (buffer : Nat),
      (∀ x ∈ reads, x.1 ≠ ReadResult.deadlineError) →
      ((mainLoop authority buffer reads).2 = .returned ↔
        ∃ x ∈ reads, x.1 = ReadResult.timeout ∧ x.2 ≠ 0) ∧
      ((mainLoop authority buffer reads).2 = .returned ∨
        (mainLoop authority buffer reads).2 = .mainLoop) := by
  intro reads
  induction reads with
  | nil => intro buffer _; simp [mainLoop]
  | cons x reads ih =>
    intro buffer hno
    obtain ⟨r, s⟩ := x
    have hno' : ∀ x ∈ reads, x.1 ≠ ReadResult.deadlineError :=
      fun x hx => hno x (List.mem_cons_of_mem _ hx)
    cases r with
    | deadlineError => exact absurd rfl (hno _ (List.mem_cons_self _ _))
    | otherError =>
      rw [mainLoop_otherError]
      have := ih (buffer + 1) hno'
      simpa using this
    | datagram a d =>
      rw [mainLoop_datagram]
      have := ih (buffer + 1) hno'
      simpa using this
    | timeout =>
      by_cases hs : s = 0
      · subst hs
        rw [mainLoop_timeout_unset]
        have := ih buffer hno'
        simpa using this
      · rw [mainLoop_timeout_set authority buffer s hs]
        simp [hs]

/-- C15.  One pass of the listener loop, on what `SetReadDeadline` and
`ReadFromUDP` meet and the value of the shutdown flag: the loop returns
exactly at a timeout with the flag set, and over read outcomes this is the
only way the loop ends; a timeout with the flag unset goes back to the label
and the next pass reads into the same buffer; a read error other than a
timeout goes to the next iteration and spawns no worker; the flag is loaded
exactly at a timeout; a datagram is dispatched whatever the flag. -/
theorem mainLoopPass_outcomes (authority : RR) (buffer : Nat) (r : ReadResult)
    (systemShutdown : Int) :
    ((mainLoopPass authority buffer r systemShutdown).2 = .returned ↔
      r = .timeout ∧ systemShutdown ≠ 0) ∧
    ((mainLoopPass authority buffer r systemShutdown).2 = .exited ↔ r = .deadlineError) ∧
    (r = .timeout → systemShutdown = 0 →
      mainLoopPass authority buffer r systemShutdown =
        ([.SetReadDeadline, .ReadFromUDP buffer, .LoadShutdown], .mainLoop) ∧
      ∀ reads, mainLoop authority buffer ((r, systemShutdown) :: reads) =
        ([.SetReadDeadline, .ReadFromUDP buffer, .LoadShutdown] ++
          (mainLoop authority buffer reads).1, (mainLoop authority buffer reads).2)) ∧
    (r = .otherError →
      mainLoopPass authority buffer r systemShutdown =
        ([.SetReadDeadline, .ReadFromUDP buffer], .forLoop) ∧
      ∀ reads, mainLoop authority buffer ((r, systemShutdown) :: reads) =
        ([.SetReadDeadline, .ReadFromUDP buffer, .make (buffer + 1)] ++
          (mainLoop authority (buffer + 1) reads).1,
          (mainLoop authority (buffer + 1) reads).2)) ∧
    (StartEvent.LoadShutdown ∈ (mainLoopPass authority buffer r systemShutdown).1 ↔
      r = .timeout) ∧
    (∀ addr b, r = .datagram addr b →
      mainLoopPass authority buffer r systemShutdown =
        ([.SetReadDeadline, .ReadFromUDP buffer, .wgAdd, .spawn addr authority buffer b],
          .forLoop)) ∧
    (∀ reads : List (ReadResult × Int), (∀ x ∈ reads, x.1 ≠ ReadResult.deadlineError) →
      ((mainLoop authority buffer reads).2 = .returned ↔
        ∃ x ∈ reads, x.1 = ReadResult.timeout ∧ x.2 ≠ 0) ∧
      ((mainLoop authority buffer reads).2 = .returned ∨
        (mainLoop authority buffer reads).2 = .mainLoop)) := by
  refine ⟨?_, ?_, ?_, ?_, ?_, ?_, fun reads h => mainLoop_ended_iff authority reads buffer h⟩
  · cases r <;> by_cases hs : systemShutdown = 0 <;> simp [mainLoopPass, hs]
  · cases r <;> by_cases hs : systemShutdown = 0 <;> simp [mainLoopPass, hs]
  · rintro rfl rfl
    exact ⟨by simp [mainLoopPass], fun reads => mainLoop_timeout_unset authority buffer reads⟩
  · rintro rfl
    exact ⟨by simp [mainLoopPass],
      fun reads => mainLoop_otherError authority buffer systemShutdown reads⟩
  · cases r <;> by_cases hs : systemShutdown = 0 <;> simp [mainLoopPass, hs]
  · rintro addr b rfl
    simp [mainLoopPass]

/-- C15 on a concrete run: a timeout with the flag unset, a datagram read
while the flag is set, a read error, another datagram and a timeout with the
flag set.  Both datagrams are dispatched, the two first passes share buffer
1, and the loop returns at the last timeout. -/
theorem mainLoopPass_outcomes_witness :
    (mainLoopPass exAuthority 4 .timeout 1).2 = .returned ∧
    mainLoop exAuthority 1
        [(.timeout, 0), (.datagram exAddr [1], 1), (.otherError, 1), (.datagram exAddr [2], 0),
          (.timeout, 1)] =
      ([.SetReadDeadline, .ReadFromUDP 1, .LoadShutdown,
        .SetReadDeadline, .ReadFromUDP 1, .wgAdd, .spawn exAddr exAuthority 1 [1], .make 2,
        .SetReadDeadline, .ReadFromUDP 2, .make 3,
        .SetReadDeadline, .ReadFromUDP 3, .wgAdd, .spawn exAddr exAuthority 3 [2], .make 4,
        .SetReadDeadline, .ReadFromUDP 4, .LoadShutdown], .returned) :=
  ⟨(mainLoopPass_outcomes exAuthority 4 .timeout 1).1.2 ⟨rfl, by decide⟩, by rfl⟩

/-- The calls of the message builder: none, or one call of the Address Source. -/
theorem respMsg_events_cases (E : Env) (d : DNSServer) (addr : UDPAddr) (authority : RR)
    (m : Msg) (includeAll : Bool) (subnetworkID : Option DomainSubnetworkID) (atype : GoString) :
    ∀ e ∈ (respMsg E d addr authority m includeAll subnetworkID atype).1,
      e.isGoodAddresses = true := by
  rcases hq : m.Question[0]? with _ | q
  · unfold respMsg
    simp [hq]
  · by_cases hns : q.Qtype = TypeNS
    · rw [respMsg_NS E d addr authority m q includeAll subnetworkID atype hq hns]
      cases E.NewRR (zoneLine q.Name 86400 "NS".toList d.nameserver) <;> simp
    · rw [respMsg_address E d addr authority m q includeAll subnetworkID atype hq hns]
      simp [Event.isGoodAddresses]

/-- The calls of the response builder are those of the message builder. -/
theorem buildDNSResponse_fst (E : Env) (d : DNSServer) (addr : UDPAddr) (authority : RR)
    (m : Msg) (includeAll : Bool) (subnetworkID : Option DomainSubnetworkID) (atype : GoString) :
    (buildDNSResponse E d addr authority m includeAll subnetworkID atype).1 =
      (respMsg E d addr authority m includeAll subnetworkID atype).1 := by
  unfold buildDNSResponse
  rcases respMsg E d addr authority m includeAll subnetworkID atype with ⟨ev, r⟩
  rcases r with _ | r
  · rfl
  · rcases r with err | resp
    · rfl
    · simp only
      cases E.Pack resp <;> rfl

/-- The body of the worker never calls `wg.Done()` itself. -/
theorem handleDNSRequestBody_no_wgDone (E : Env) (d : DNSServer) (addr : UDPAddr)
    (authority : RR) (b : Bytes) :
    (handleDNSRequestBody E d addr authority b).1.count Event.wgDone = 0 := by
  have hbuild : ∀ (m : Msg) (incl : Bool) (id : Option DomainSubnetworkID) (atype : GoString),
      (buildDNSResponse E d addr authority m incl id atype).1.count Event.wgDone = 0 := by
    intro m incl id atype
    rw [buildDNSResponse_fst, List.count_eq_zero]
    intro h
    have := respMsg_events_cases E d addr authority m incl id atype _ h
    simp [Event.isGoodAddresses] at this
  unfold handleDNSRequestBody
  rcases validateDNSRequest E d addr b with _ | ⟨dnsMsg, domainName, atype, err⟩
  · simp
  · cases err with
    | some err => simp
    | none =>
      simp only [ne_eq, not_true_eq_false, if_false]
      rcases extractSubnetworkID E d addr domainName with _ | ⟨id, incl, err⟩
      · simp
      · cases err with
        | some err => simp
        | none =>
          simp only [ne_eq, not_true_eq_false, if_false]
          rcases dnsMsg.bind (fun m => m.Question[0]?.map (fun _ => m)) with _ | m
          · simp
          · simp only
            have hb := hbuild m incl id atype
            rcases hbd : buildDNSResponse E d addr authority m incl id atype with ⟨ev, r⟩
            rw [hbd] at hb
            simp only at hb
            rcases r with _ | ⟨sendBytes, err⟩
            · simp [List.count_append, hb]
            · cases err with
              | some err => simp [List.count_append, hb]
              | none => simp [List.count_append, hb]

/-- Every worker calls `wg.Done()` exactly once, whatever happens in it. -/
theorem handleDNSRequest_wgDone_once (E : Env) (d : DNSServer) (addr : UDPAddr)
    (authority : RR) (b : Bytes) :
    (handleDNSRequest E d addr authority b).count Event.wgDone = 1 := by
  have h := handleDNSRequestBody_no_wgDone E d addr authority b
  unfold handleDNSRequest
  rcases hb : handleDNSRequestBody E d addr authority b with ⟨events, panicked⟩
  rw [hb] at h
  simp only at h
  cases panicked <;> simp [List.count_append, h]

/-- The workers spawned and the increments of the counter in one pass. -/
theorem mainLoopPass_counts (authority : RR) (buffer : Nat) (r : ReadResult) (s : Int) :
    (mainLoopPass authority buffer r s).1.countP StartEvent.isSpawn =
      (if r.isDatagram then 1 else 0) ∧
    (mainLoopPass authority buffer r s).1.count StartEvent.wgAdd =
      (if r.isDatagram then 1 else 0) ∧
    (mainLoopPass authority buffer r s).1.count StartEvent.SetReadDeadline = 1 := by
  cases r <;> by_cases hs : s = 0 <;>
    simp [mainLoopPass, hs, StartEvent.isSpawn, ReadResult.isDatagram, List.countP_cons,
      List.count_cons]

/-- The workers spawned by the loop: one per datagram among the passes made. -/
theorem mainLoop_counts (authority : RR) :
    ∀ (reads : List (ReadResult × Int)) (buffer : Nat),
      (mainLoop authority buffer reads).1.countP StartEvent.isSpawn =
        (reads.take ((mainLoop authority buffer reads).1.count StartEvent.SetReadDeadline)).countP
          (fun x => x.1.isDatagram) ∧
      (mainLoop authority buffer reads).1.count StartEvent.wgAdd =
        (mainLoop authority buffer reads).1.countP StartEvent.isSpawn := by
  intro reads
  induction reads with
  | nil => intro buffer; simp [mainLoop]
  | cons x reads ih =>
    intro buffer
    obtain ⟨r, s⟩ := x
    have e1 : ∀ a d, (ReadResult.datagram a d).isDatagram = true := fun _ _ => rfl
    have e2 : ReadResult.otherError.isDatagram = false := rfl
    have e3 : ReadResult.timeout.isDatagram = false := rfl
    have e4 : ReadResult.deadlineError.isDatagram = false := rfl
    cases r with
    | deadlineError =>
      rw [mainLoop_deadlineError]
      simp [StartEvent.isSpawn, e4, List.countP_cons, List.count_cons]
    | otherError =>
      rw [mainLoop_otherError]
      obtain ⟨h1, h2⟩ := ih (buffer + 1)
      simp [StartEvent.isSpawn, e2, List.countP_cons, List.count_cons, List.take_succ_cons, h1,
        h2]
    | datagram a d =>
      rw [mainLoop_datagram]
      obtain ⟨h1, h2⟩ := ih (buffer + 1)
      simp [StartEvent.isSpawn, e1, List.countP_cons, List.count_cons, List.take_succ_cons, h1,
        h2]
    | timeout =>
      by_cases hs : s = 0
      · subst hs
        rw [mainLoop_timeout_unset]
        obtain ⟨h1, h2⟩ := ih buffer
        simp [StartEvent.isSpawn, e3, List.countP_cons, List.count_cons, List.take_succ_cons,
          h1, h2]
      · rw [mainLoop_timeout_set authority buffer s hs]
        simp [StartEvent.isSpawn, e3, List.countP_cons, List.count_cons]

/-- In a list: every call of `spawn` comes directly after a `wg.Add(1)`. -/
theorem wgAdd_before_spawn_append (l₁ l₂ : List StartEvent)
    (h1 : ∀ pre post e, StartEvent.isSpawn e = true → l₁ = pre ++ e :: post →
      ∃ pre', pre = pre' ++ [StartEvent.wgAdd])
    (h2 : ∀ pre post e, StartEvent.isSpawn e = true → l₂ = pre ++ e :: post →
      ∃ pre', pre = pre' ++ [StartEvent.wgAdd]) :
    ∀ pre post e, StartEvent.isSpawn e = true → l₁ ++ l₂ = pre ++ e :: post →
      ∃ pre', pre = pre' ++ [StartEvent.wgAdd] := by
  intro pre post e he h
  rcases List.append_eq_append_iff.1 h with ⟨a', hpre, hl2⟩ | ⟨c', hl1, hc⟩
  · obtain ⟨pre', hp⟩ := h2 a' post e he hl2
    exact ⟨l₁ ++ pre', by rw [hpre, hp, List.append_assoc]⟩
  · rcases c' with _ | ⟨x, c''⟩
    · simp only [List.nil_append] at hc
      obtain ⟨pre', hp⟩ := h2 [] post e he hc.symm
      simp at hp
    · simp only [List.cons_append, List.cons.injEq] at hc
      obtain ⟨rfl, -⟩ := hc
      exact h1 pre c'' e he hl1

/-- A list without a call of `spawn`. -/
theorem wgAdd_before_spawn_of_none (l : List StartEvent)
    (h : ∀ e ∈ l, StartEvent.isSpawn e = false) :
    ∀ pre post e, StartEvent.isSpawn e = true → l = pre ++ e :: post →
      ∃ pre', pre = pre' ++ [StartEvent.wgAdd] := by
  intro pre post e he hl
  have hmem : e ∈ l := by rw [hl]; simp
  rw [h e hmem] at he
  exact absurd he (by simp)

/-- The two events of a dispatch. -/
theorem wgAdd_before_spawn_pair (x : StartEvent) :
    ∀ pre post e, StartEvent.isSpawn e = true → [StartEvent.wgAdd, x] = pre ++ e :: post →
      ∃ pre', pre = pre' ++ [StartEvent.wgAdd] := by
  intro pre post e he hl
  rcases pre with _ | ⟨p, pre⟩
  · simp only [List.nil_append, List.cons.injEq] at hl
    rw [← hl.1] at he
    simp [StartEvent.isSpawn] at he
  · rcases pre with _ | ⟨p', pre⟩
    · simp only [List.cons_append, List.nil_append, List.cons.injEq] at hl
      exact ⟨[], by simp [hl.1]⟩
    · simp at hl

/-- In the loop every call of `spawn` comes directly after a `wg.Add(1)`. -/
theorem mainLoop_wgAdd_before_spawn (authority : RR) :
    ∀ (reads : List (ReadResult × Int)) (buffer : Nat) (pre post : List StartEvent)
      (e : StartEvent), StartEvent.isSpawn e = true →
      (mainLoop authority buffer reads).1 = pre ++ e :: post →
      ∃ pre', pre = pre' ++ [StartEvent.wgAdd] := by
  intro reads
  induction reads with
  | nil =>
    intro buffer
    exact wgAdd_before_spawn_of_none _ (by simp [mainLoop])
  | cons x reads ih =>
    intro buffer
    obtain ⟨r, s⟩ := x
    cases r with
    | deadlineError =>
      rw [mainLoop_deadlineError]
      exact wgAdd_before_spawn_of_none _ (by simp [StartEvent.isSpawn])
    | otherError =>
      rw [mainLoop_otherError]
      exact wgAdd_before_spawn_append _ _
        (wgAdd_before_spawn_of_none _ (by simp [StartEvent.isSpawn])) (ih (buffer + 1))
    | datagram a d =>
      rw [mainLoop_datagram]
      have h : ([StartEvent.SetReadDeadline, .ReadFromUDP buffer, .wgAdd,
          .spawn a authority buffer d, .make (buffer + 1)] : List StartEvent) =
          [.SetReadDeadline, .ReadFromUDP buffer] ++
            ([.wgAdd, .spawn a authority buffer d] ++ [.make (buffer + 1)]) := rfl
      rw [h]
      exact wgAdd_before_spawn_append _ _
        (wgAdd_before_spawn_append _ _
          (wgAdd_before_spawn_of_none _ (by simp [StartEvent.isSpawn]))
          (wgAdd_before_spawn_append _ _ (wgAdd_before_spawn_pair _)
            (wgAdd_before_spawn_of_none _ (by simp [StartEvent.isSpawn]))))
        (ih (buffer + 1))
    | timeout =>
      by_cases hs : s = 0
      · subst hs
        rw [mainLoop_timeout_unset]
        exact wgAdd_before_spawn_append _ _
          (wgAdd_before_spawn_of_none _ (by simp [StartEvent.isSpawn])) (ih buffer)
      · rw [mainLoop_timeout_set authority buffer s hs]
        exact wgAdd_before_spawn_of_none _ (by simp [StartEvent.isSpawn])

/-- The events of the listener act on the counter and the workers only: each
`wg.Add(1)` adds one, each `wg.Done()` takes one, each `spawn` adds a worker. -/
theorem System.foldl_listen (l : List StartEvent) :
    ∀ s : System,
      (l.foldl System.listen s).counter =
        s.counter + l.count StartEvent.wgAdd - l.count StartEvent.wgDone ∧
      (l.foldl System.listen s).inFlight = s.inFlight ++ l.filterMap StartEvent.worker? ∧
      (l.foldl System.listen s).next = s.next ∧
      (l.foldl System.listen s).buffer = s.buffer := by
  induction l with
  | nil => intro s; simp
  | cons e l ih =>
    intro s
    obtain ⟨h1, h2, h3, h4⟩ := ih (s.listen e)
    simp only [List.foldl_cons]
    rw [h1, h2, h3, h4]
    cases e <;>
      simp [System.listen, StartEvent.worker?, List.count_cons, List.filterMap_cons] <;> omega

/-- A pass of the listener keeps the balance. -/
theorem System.pass_balance (authority : RR) (s : System) (r : ReadResult) (f : Int) :
    (s.pass authority r f).balance = s.balance := by
  unfold System.pass System.balance
  cases hn : s.next <;> simp only
  all_goals
    cases r <;> by_cases hf : f = 0 <;>
      simp [mainLoopPass, hf, System.listen, hn]
  all_goals omega

/-- The end of a worker keeps the balance. -/
theorem System.finish_balance (E : Env) (d : DNSServer) (s : System) (i : Nat) :
    (s.finish E d i).balance = s.balance := by
  unfold System.finish System.balance
  rcases hi : s.inFlight[i]? with _ | ⟨addr, authority, b⟩
  · rfl
  · have hlt : i < s.inFlight.length := by
      by_contra h
      rw [List.getElem?_eq_none (by omega)] at hi
      exact absurd hi (by simp)
    simp only [handleDNSRequest_wgDone_once, List.length_eraseIdx, hlt, if_true]
    have : (1 : Nat) ≤ s.inFlight.length := by omega
    push_cast [Nat.cast_sub this]
    omega

/-- A schedule keeps the balance. -/
theorem System.run_balance (E : Env) (d : DNSServer) (authority : RR) :
    ∀ (actions : List Action) (s : System),
      (s.run E d authority actions).balance = s.balance := by
  intro actions
  induction actions with
  | nil => intro s; rfl
  | cons a actions ih =>
    intro s
    unfold System.run
    simp only [List.foldl_cons]
    cases a with
    | pass r f =>
      have h := ih (s.pass authority r f)
      unfold System.run at h
      rw [h, System.pass_balance]
    | finish i =>
      have h := ih (s.finish E d i)
      unfold System.run at h
      rw [h, System.finish_balance]

/-- Method `Start` when the authority record is built and the socket is
opened: the first buffer, the events of the loop, and the deferred calls
when the loop has returned. -/
theorem Start_eq_mainLoop (E : Env) (d : DNSServer) (authority : RR)
    (reads : List (ReadResult × Int))
    (hrr : IsRecord E d.hostname 86400 "NS".toList d.nameserver authority) :
    Start E d none none reads =
      [.make 1] ++ (mainLoop authority 1 reads).1 ++
        deferredCalls (mainLoop authority 1 reads).2 := by
  unfold IsRecord at hrr
  unfold Start
  simp only [line198_eq, hrr, ne_eq, not_true_eq_false, if_false]
  rcases mainLoop authority 1 reads with ⟨events, next⟩
  cases next <;> simp [deferredCalls]

/-- Method `Start` when the authority record cannot be built, the address
cannot be resolved or the socket cannot be opened: only the deferred
`wg.Done()` runs. -/
theorem Start_early_return (E : Env) (d : DNSServer) (resolveErr listenErr : error)
    (reads : List (ReadResult × Int))
    (h : (∃ err, E.NewRR (zoneLine d.hostname 86400 "NS".toList d.nameserver) = .error err) ∨
      resolveErr ≠ none ∨ listenErr ≠ none) :
    Start E d resolveErr listenErr reads = [.wgDone] := by
  unfold Start
  simp only [line198_eq]
  cases hrr : E.NewRR (zoneLine d.hostname 86400 "NS".toList d.nameserver) with
  | error err => rfl
  | ok authority =>
    simp only
    rcases h with ⟨err, he⟩ | h | h
    · rw [hrr] at he; exact absurd he (by simp)
    · simp [h]
    · by_cases h1 : resolveErr = none
      · simp [h1, h]
      · simp [h1]

/-- A listener that has returned or exited makes no further pass. -/
theorem System.run_passes_stopped (E : Env) (d : DNSServer) (authority : RR) :
    ∀ (reads : List (ReadResult × Int)) (s : System),
      s.next = .returned ∨ s.next = .exited → s.run E d authority (passesOf reads) = s := by
  intro reads
  induction reads with
  | nil => intro s _; rfl
  | cons x reads ih =>
    intro s hs
    have hp : s.pass authority x.1 x.2 = s := by
      unfold System.pass
      rcases hs with h | h <;> rw [h]
    have h := ih s hs
    unfold System.run passesOf at h ⊢
    simp only [List.map_cons, List.foldl_cons, hp]
    exact h

/-- The listener alone: the schedule of its passes does to the counter and
the workers what the events of the loop and its deferred calls do. -/
theorem System.run_passes (E : Env) (d : DNSServer) (authority : RR) :
    ∀ (reads : List (ReadResult × Int)) (s : System), s.next = .mainLoop →
      (s.run E d authority (passesOf reads)).counter =
        (((mainLoop authority s.buffer reads).1 ++
          deferredCalls (mainLoop authority s.buffer reads).2).foldl System.listen s).counter ∧
      (s.run E d authority (passesOf reads)).inFlight =
        (((mainLoop authority s.buffer reads).1 ++
          deferredCalls (mainLoop authority s.buffer reads).2).foldl System.listen s).inFlight ∧
      (s.run E d authority (passesOf reads)).next = (mainLoop authority s.buffer reads).2 := by
  intro reads
  induction reads with
  | nil =>
    intro s hs
    simp [System.run, passesOf, mainLoop, deferredCalls, hs]
  | cons x reads ih =>
    intro s hs
    obtain ⟨r, f⟩ := x
    obtain ⟨n, buf, c, w⟩ := s
    simp only at hs
    subst hs
    have hstep : (System.mk .mainLoop buf c w).run E d authority (passesOf ((r, f) :: reads)) =
        ((System.mk .mainLoop buf c w).pass authority r f).run E d authority (passesOf reads) := by
      simp [System.run, passesOf]
    rw [hstep]
    cases r with
    | deadlineError =>
      have hp : (System.mk .mainLoop buf c w).pass authority .deadlineError f =
          System.mk .exited buf c w := by
        simp [System.pass, mainLoopPass, System.listen]
      rw [hp, System.run_passes_stopped E d authority reads _ (Or.inr rfl),
        mainLoop_deadlineError]
      simp [deferredCalls, System.listen]
    | timeout =>
      by_cases hf : f = 0
      · subst hf
        have hp : (System.mk .mainLoop buf c w).pass authority .timeout 0 =
            System.mk .mainLoop buf c w := by
          simp [System.pass, mainLoopPass, System.listen]
        rw [hp, mainLoop_timeout_unset]
        obtain ⟨h1, h2, h3⟩ := ih (System.mk .mainLoop buf c w) rfl
        refine ⟨?_, ?_, h3⟩
        · rw [h1]
          simp [List.foldl_append, System.listen]
        · rw [h2]
          simp [List.foldl_append, System.listen]
      · have hp : (System.mk .mainLoop buf c w).pass authority .timeout f =
            System.mk .returned buf (c - 1) w := by
          simp [System.pass, mainLoopPass, System.listen, hf]
        rw [hp, System.run_passes_stopped E d authority reads _ (Or.inl rfl),
          mainLoop_timeout_set authority buf f hf]
        simp [deferredCalls, System.listen]
    | otherError =>
      have hp : (System.mk .mainLoop buf c w).pass authority .otherError f =
          System.mk .mainLoop (buf + 1) c w := by
        simp [System.pass, mainLoopPass, System.listen]
      rw [hp, mainLoop_otherError]
      obtain ⟨h1, h2, h3⟩ := ih (System.mk .mainLoop (buf + 1) c w) rfl
      refine ⟨?_, ?_, h3⟩
      · rw [h1]
        simp only [(System.foldl_listen _ _).1]
        simp [List.count_cons]
      · rw [h2]
        simp only [(System.foldl_listen _ _).2.1]
        simp [StartEvent.worker?, List.filterMap_cons]
    | datagram a b =>
      have hp : (System.mk .mainLoop buf c w).pass authority (.datagram a b) f =
          System.mk .mainLoop (buf + 1) (c + 1) (w ++ [(a, authority, b)]) := by
        simp [System.pass, mainLoopPass, System.listen]
      rw [hp, mainLoop_datagram]
      obtain ⟨h1, h2, h3⟩ :=
        ih (System.mk .mainLoop (buf + 1) (c + 1) (w ++ [(a, authority, b)])) rfl
      refine ⟨?_, ?_, h3⟩
      · rw [h1]
        simp only [(System.foldl_listen _ _).1]
        simp [List.count_cons]
        omega
      · rw [h2]
        simp only [(System.foldl_listen _ _).2.1]
        simp [StartEvent.worker?, List.filterMap_cons]

/-- The loop itself never calls `wg.Done()`. -/
theorem mainLoop_no_wgDone (authority : RR) :
    ∀ (reads : List (ReadResult × Int)) (buffer : Nat),
      (mainLoop authority buffer reads).1.count StartEvent.wgDone = 0 := by
  intro reads
  induction reads with
  | nil => intro buffer; simp [mainLoop]
  | cons x reads ih =>
    intro buffer
    obtain ⟨r, s⟩ := x
    cases r with
    | deadlineError => rw [mainLoop_deadlineError]; simp [List.count_cons]
    | otherError => rw [mainLoop_otherError]; simp [List.count_cons, ih (buffer + 1)]
    | datagram a d => rw [mainLoop_datagram]; simp [List.count_cons, ih (buffer + 1)]
    | timeout =>
      by_cases hs : s = 0
      · subst hs
        rw [mainLoop_timeout_unset]
        simp [List.count_cons, ih buffer]
      · rw [mainLoop_timeout_set authority buffer s hs]
        simp [List.count_cons]

/-- C16 as stated fails: the listener reads one datagram and then meets a
timeout with the shutdown flag set.  Its loop returns, the deferred
`wg.Done()` of `Start` runs, and with the worker of the datagram still in
flight the counter is back at its initial value 1, not 1 plus the one worker
in flight. -/
theorem counter_after_listener_return :
    Start (refEnv [] noPeers) exServer none none
        [(.datagram exAddr exDatagramA, 0), (.timeout, 1)] =
      [.make 1, .SetReadDeadline, .ReadFromUDP 1, .wgAdd,
        .spawn exAddr exAuthority 1 exDatagramA, .make 2, .SetReadDeadline, .ReadFromUDP 2,
        .LoadShutdown, .Close, .wgDone] ∧
    System.run (refEnv [] noPeers) exServer exAuthority (System.mk .mainLoop 1 1 [])
        [.pass (.datagram exAddr exDatagramA) 0, .pass .timeout 1] =
      System.mk .returned 2 1 [(exAddr, exAuthority, exDatagramA)] ∧
    (System.run (refEnv [] noPeers) exServer exAuthority (System.mk .mainLoop 1 1 [])
        [.pass (.datagram exAddr exDatagramA) 0, .pass .timeout 1]).counter ≠
      1 + ((System.run (refEnv [] noPeers) exServer exAuthority (System.mk .mainLoop 1 1 [])
        [.pass (.datagram exAddr exDatagramA) 0, .pass .timeout 1]).inFlight.length : Int) :=
  ⟨by rfl, by rfl, by decide⟩

/-- C16, amended.  In the listener loop a pass spawns one worker when it reads
a datagram and none otherwise, so the number of workers spawned is the number
of datagrams among the passes made; the counter is incremented once per
spawn, and every call of `spawn` comes directly after its `wg.Add(1)`.  Every
worker calls `wg.Done()` exactly once, on every way out of
`handleDNSRequest`.  The trace of `Start` is the first buffer, the events of
this loop and, when the loop has returned, the deferred `Close()` and
`wg.Done()`; so the same counts hold of `Start`, which calls `wg.Done()`
itself exactly when its loop has returned, and the listener of the schedules
below does to the counter and the workers what the trace of `Start` does.
Hence, with passes of the listener and ends of workers interleaved in any
order and no worker in flight at the start: as long as the listener has not
returned, the counter is its initial value plus the number of workers in
flight, and once it has returned the counter is one less than that (a worker
counts as in flight from its `wg.Add(1)` to its `wg.Done()`). -/
theorem listener_worker_accounting (E : Env) (d : DNSServer) (authority : RR) :
    (∀ buffer r f,
      (mainLoopPass authority buffer r f).1.countP StartEvent.isSpawn =
        (if r.isDatagram then 1 else 0) ∧
      (mainLoopPass authority buffer r f).1.count StartEvent.wgAdd =
        (if r.isDatagram then 1 else 0)) ∧
    (∀ buffer reads,
      (mainLoop authority buffer reads).1.countP StartEvent.isSpawn =
        (reads.take ((mainLoop authority buffer reads).1.count StartEvent.SetReadDeadline)).countP
          (fun x => x.1.isDatagram) ∧
      (mainLoop authority buffer reads).1.count StartEvent.wgAdd =
        (mainLoop authority buffer reads).1.countP StartEvent.isSpawn) ∧
    (∀ buffer reads pre post addr auth n b,
      (mainLoop authority buffer reads).1 = pre ++ StartEvent.spawn addr auth n b :: post →
      ∃ pre', pre = pre' ++ [StartEvent.wgAdd]) ∧
    (∀ addr auth b, (handleDNSRequest E d addr auth b).count Event.wgDone = 1) ∧
    (IsRecord E d.hostname 86400 "NS".toList d.nameserver authority →
      ∀ reads,
        Start E d none none reads =
          [.make 1] ++ (mainLoop authority 1 reads).1 ++
            deferredCalls (mainLoop authority 1 reads).2 ∧
        (Start E d none none reads).countP StartEvent.isSpawn =
          (reads.take ((Start E d none none reads).count StartEvent.SetReadDeadline)).countP
            (fun x => x.1.isDatagram) ∧
        (Start E d none none reads).count StartEvent.wgAdd =
          (Start E d none none reads).countP StartEvent.isSpawn ∧
        (∀ pre post addr auth n b,
          Start E d none none reads = pre ++ StartEvent.spawn addr auth n b :: post →
          ∃ pre', pre = pre' ++ [StartEvent.wgAdd]) ∧
        (Start E d none none reads).count StartEvent.wgDone =
          (if (mainLoop authority 1 reads).2 = .returned then 1 else 0) ∧
        (∀ c w,
          ((System.mk .mainLoop 1 c w).run E d authority (passesOf reads)).counter =
            ((Start E d none none reads).foldl System.listen (System.mk .mainLoop 1 c w)).counter ∧
          ((System.mk .mainLoop 1 c w).run E d authority (passesOf reads)).inFlight =
            ((Start E d none none reads).foldl System.listen
              (System.mk .mainLoop 1 c w)).inFlight ∧
          ((System.mk .mainLoop 1 c w).run E d authority (passesOf reads)).next =
            (mainLoop authority 1 reads).2)) ∧
    (∀ resolveErr listenErr reads,
      (∃ err, E.NewRR (zoneLine d.hostname 86400 "NS".toList d.nameserver) = .error err) ∨
        resolveErr ≠ none ∨ listenErr ≠ none →
      Start E d resolveErr listenErr reads = [.wgDone]) ∧
    (∀ (s : System) actions, (s.run E d authority actions).balance = s.balance) ∧
    (∀ (s : System) actions, s.next = .mainLoop → s.inFlight = [] →
      ((s.run E d authority actions).next ≠ .returned →
        (s.run E d authority actions).counter =
          s.counter + (s.run E d authority actions).inFlight.length) ∧
      ((s.run E d authority actions).next = .returned →
        (s.run E d authority actions).counter =
          s.counter + (s.run E d authority actions).inFlight.length - 1)) := by
  refine ⟨?_, ?_, ?_, ?_, ?_, ?_, ?_, ?_⟩
  · intro buffer r f
    exact ⟨(mainLoopPass_counts authority buffer r f).1,
      (mainLoopPass_counts authority buffer r f).2.1⟩
  · intro buffer reads
    exact mainLoop_counts authority reads buffer
  · intro buffer reads pre post addr auth n b h
    exact mainLoop_wgAdd_before_spawn authority reads buffer pre post
      (StartEvent.spawn addr auth n b) rfl h
  · intro addr auth b
    exact handleDNSRequest_wgDone_once E d addr auth b
  · intro hrr reads
    have hS := Start_eq_mainLoop E d authority reads hrr
    obtain ⟨hc1, hc2⟩ := mainLoop_counts authority reads 1
    have hdef : ∀ e ∈ deferredCalls (mainLoop authority 1 reads).2,
        StartEvent.isSpawn e = false := by
      intro e he
      cases hn : (mainLoop authority 1 reads).2 <;> rw [hn] at he <;>
        simp [deferredCalls] at he
      rcases he with rfl | rfl <;> rfl
    have hd1 : (deferredCalls (mainLoop authority 1 reads).2).countP StartEvent.isSpawn = 0 := by
      cases (mainLoop authority 1 reads).2 <;> simp [deferredCalls, StartEvent.isSpawn]
    have hd2 : (deferredCalls (mainLoop authority 1 reads).2).count StartEvent.wgAdd = 0 := by
      cases (mainLoop authority 1 reads).2 <;> simp [deferredCalls]
    have hd3 : (deferredCalls (mainLoop authority 1 reads).2).count
        StartEvent.SetReadDeadline = 0 := by
      cases (mainLoop authority 1 reads).2 <;> simp [deferredCalls]
    have hd4 : (deferredCalls (mainLoop authority 1 reads).2).count StartEvent.wgDone =
        (if (mainLoop authority 1 reads).2 = .returned then 1 else 0) := by
      cases (mainLoop authority 1 reads).2 <;> simp [deferredCalls]
    refine ⟨hS, ?_, ?_, ?_, ?_, ?_⟩
    · rw [hS]
      simp [List.countP_append, List.count_append, List.countP_cons, List.count_cons,
        StartEvent.isSpawn, hd1, hd3, hc1]
    · rw [hS]
      simp [List.countP_append, List.count_append, List.countP_cons, List.count_cons,
        StartEvent.isSpawn, hd1, hd2, hc2]
    · intro pre post addr auth n b h
      rw [hS, List.append_assoc] at h
      exact wgAdd_before_spawn_append _ _
        (wgAdd_before_spawn_of_none _ (by simp [StartEvent.isSpawn]))
        (wgAdd_before_spawn_append _ _ (mainLoop_wgAdd_before_spawn authority reads 1)
          (wgAdd_before_spawn_of_none _ hdef))
        pre post (StartEvent.spawn addr auth n b) rfl h
    · rw [hS]
      simp [List.count_append, List.count_cons, mainLoop_no_wgDone authority reads 1, hd4]
    · intro c w
      obtain ⟨h1, h2, h3⟩ := System.run_passes E d authority reads (System.mk .mainLoop 1 c w) rfl
      refine ⟨?_, ?_, h3⟩
      · rw [h1, hS]
        simp only [(System.foldl_listen _ _).1]
        simp [List.count_append, List.count_cons]
      · rw [h2, hS]
        simp only [(System.foldl_listen _ _).2.1]
        simp [List.filterMap_append, List.filterMap_cons, StartEvent.worker?]
  · intro resolveErr listenErr reads h
    exact Start_early_return E d resolveErr listenErr reads h
  · intro s actions
    exact System.run_balance E d authority actions s
  · intro s actions hn hs
    have h := System.run_balance E d authority actions s
    unfold System.balance at h
    rw [hs, hn] at h
    simp only [List.length_nil, Int.Nat.cast_ofNat_Int, sub_zero, reduceCtorEq, if_false,
      add_zero] at h
    constructor
    · intro hne
      rw [if_neg hne] at h
      omega
    · intro he
      rw [if_pos he] at h
      omega

/-- C16, amended, on concrete schedules.  While the listener runs: two
datagrams (one of them rejected by the validator), a timeout and a read
error, one worker ending in between; from the counter at 1 it is 2 with one
worker in flight.  And the loop on the sample reads spawns two workers for
the two datagrams it reads before it returns. -/
theorem listener_worker_accounting_witness :
    System.run (refEnv [(exDatagramA, queryMsg 4660 exName TypeA)] twoPeers) exServer
        exAuthority (System.mk .mainLoop 1 1 [])
        [.pass (.datagram exAddr exDatagramA) 0, .pass .timeout 0,
          .pass (.datagram exAddr exDatagramMX) 1, .finish 1, .pass .otherError 0] =
      System.mk .mainLoop 4 2 [(exAddr, exAuthority, exDatagramA)] ∧
    (mainLoop exAuthority 1 exReads).1.countP StartEvent.isSpawn = 2 ∧
    (mainLoop exAuthority 1 exReads).2 = .returned ∧
    (Start (refEnv [] noPeers) exServer none none exReads).count StartEvent.wgDone = 1 :=
  have h := listener_worker_accounting
    (refEnv [(exDatagramA, queryMsg 4660 exName TypeA)] twoPeers) exServer exAuthority
  have h' := listener_worker_accounting (refEnv [] noPeers) exServer exAuthority
  ⟨by rfl, (h.2.1 1 exReads).1.trans (by rfl), by rfl,
    ((h'.2.2.2.2.1 (by rfl)) exReads).2.2.2.2.1.trans (by rfl)⟩

/-- Lowercasing turns no other character into a dot. -/
theorem toLower_ne_dot (c : Char) (h : c ≠ '.') : c.toLower ≠ '.' := by
  unfold Char.toLower
  simp only
  split_ifs with hc
  · obtain ⟨n, hn⟩ : ∃ n, c.toNat = n := ⟨_, rfl⟩
    rw [hn] at hc ⊢
    obtain ⟨h1, h2⟩ := hc
    interval_cases n <;> decide
  · exact h

/-- A server returned by `NewDNSServer` has a non-empty hostname. -/
theorem NewDNSServer_hostname_ne_nil (hostname nameserver listen : GoString) (d : DNSServer)
    (hd : NewDNSServer hostname nameserver listen = some d) : d.hostname ≠ [] := by
  unfold NewDNSServer at hd
  simp only [Option.bind_eq_bind, Option.bind_eq_some, pure, Option.some.injEq] at hd
  obtain ⟨hl, hhl, nl, -, rfl⟩ := hd
  have hne : hostname ≠ [] := by
    rintro rfl
    simp at hhl
  by_cases hc : hl = '.' <;> simp [hc, hne]

/-- The pieces of a text read with a non-empty piece in hand start with a
non-empty piece. -/
theorem splitSep_head_ne_nil (sep : Char) :
    ∀ (s cur : GoString), cur ≠ [] → ∃ l ls, splitSep sep s cur = l :: ls ∧ l ≠ [] := by
  intro s
  induction s with
  | nil =>
    intro cur hcur
    exact ⟨cur, [], by simp [splitSep, hcur], hcur⟩
  | cons c cs ih =>
    intro cur hcur
    by_cases hc : c = sep
    · exact ⟨cur, splitSep sep cs [], by simp [splitSep, hc], hcur⟩
    · obtain ⟨l, ls, h, hl⟩ := ih (cur ++ [c]) (by simp)
      exact ⟨l, ls, by simp [splitSep, hc, h], hl⟩

/-- The reference environment splits off a non-empty first label. -/
theorem refEnv_SplitsFirstLabel (wire : List (Bytes × Msg))
    (peers : Nat → Bool → Option DomainSubnetworkID → List NetAddress) :
    SplitsFirstLabel (refEnv wire peers) := by
  intro c cs hc
  show ∃ l ls, refSplitDomainName (c :: cs) = l :: ls ∧ l ≠ []
  unfold refSplitDomainName
  have h1 : ¬ (c :: cs = [] ∨ c :: cs = ['.']) := by
    simp only [reduceCtorEq, List.cons.injEq, false_or, not_and]
    intro h
    exact absurd h hc
  rw [if_neg h1]
  obtain ⟨l, ls, h, hl⟩ := splitSep_head_ne_nil '.' cs [c] (by simp)
  exact ⟨l, ls, by simp [splitSep, hc, h], hl⟩

/-- The reference environment with one datagram unpacks codec names when the
names of its message are codec names. -/
theorem refEnv_UnpacksCodecNames (dg : Bytes) (msg : Msg)
    (peers : Nat → Bool → Option DomainSubnetworkID → List NetAddress)
    (hmsg : ∀ q ∈ msg.Question, CodecName q.Name) :
    UnpacksCodecNames (refEnv [(dg, msg)] peers) := by
  intro b m hm q hq
  have hm' : (match List.lookup b [(dg, msg)] with
      | some m => Except.ok m
      | none => Except.error (Err.lib "dns: bad message".toList)) = Except.ok m := hm
  by_cases hb : b = dg
  · subst hb
    simp only [List.lookup, beq_self_eq_true, Except.ok.injEq] at hm'
    subst hm'
    exact hmsg q hq
  · have hbeq : (b == dg) = false := by simpa using hb
    simp [List.lookup, hbeq] at hm'

/-- C17.  Let the codec unpack question names in its written form and let the
splitter give a name that does not start with a dot a non-empty first label.
For a server returned by `NewDNSServer` and a domain name the validator
accepted: when the name differs from the hostname, splitting it yields at
least one label and the first label is not empty, so `labels[0][0]` is in
bounds and the extractor returns (it does not panic). -/
theorem extractSubnetworkID_in_bounds (E : Env) (hostname nameserver listen : GoString)
    (d : DNSServer) (addr : UDPAddr) (b : Bytes) (dnsMsg : Option Msg)
    (domainName atype : GoString)
    (hcodec : UnpacksCodecNames E) (hsplit : SplitsFirstLabel E)
    (hd : NewDNSServer hostname nameserver listen = some d)
    (hv : validateDNSRequest E d addr b = some (dnsMsg, domainName, atype, none)) :
    (domainName ≠ d.hostname →
      ∃ c cs ls, E.SplitDomainName domainName = (c :: cs) :: ls) ∧
    ∃ r, extractSubnetworkID E d addr domainName = some r := by
  obtain ⟨m, q, hm, -, hq, hname, hsub, -⟩ :=
    validateDNSRequest_accepted_inv E d addr b _ _ _ hv
  have hhost := NewDNSServer_hostname_ne_nil hostname nameserver listen d hd
  have hlabels : domainName ≠ d.hostname →
      ∃ c cs ls, E.SplitDomainName domainName = (c :: cs) :: ls := by
    intro hne
    rcases hcodec b m hm q (by simp [hq]) with hroot | ⟨c, cs, hcs, hc⟩
    · -- the root name contains no other non-empty name than itself
      exfalso
      rw [hroot] at hsub hname
      have hl : ToLower ['.'] = ['.'] := by decide
      rw [hl] at hsub hname
      obtain ⟨pre, suf, hps⟩ := hsub
      apply hne
      rw [hname]
      rcases pre with _ | ⟨p, pre⟩
      · rcases hh : d.hostname with _ | ⟨h0, hs⟩
        · exact absurd hh hhost
        · rw [hh] at hps
          simp only [List.nil_append, List.cons_append, List.cons.injEq,
            List.append_eq_nil] at hps
          rw [hps.1, hps.2.1]
      · simp only [List.cons_append, List.cons.injEq, List.append_eq_nil] at hps
        exact absurd hps.2.1.2 hhost
    · rw [hname, hcs]
      obtain ⟨l, ls, hl, hlne⟩ := hsplit c.toLower (ToLower cs) (toLower_ne_dot c hc)
      rcases l with _ | ⟨c', cs'⟩
      · exact absurd rfl hlne
      · exact ⟨c', cs', ls, by simpa [ToLower] using hl⟩
  refine ⟨hlabels, ?_⟩
  rw [extractSubnetworkID_eq]
  by_cases he : d.hostname = domainName
  · rw [if_pos he]
    exact ⟨_, rfl⟩
  · rw [if_neg he]
    obtain ⟨c, cs, ls, hl⟩ := hlabels (fun h => he h.symm)
    rw [hl]
    simp only
    split_ifs <;> exact ⟨_, rfl⟩

/-- C17 at a concrete datagram: for the query for the subnetwork name of the
examples the first label is `n0300…00`, and the extractor returns. -/
theorem extractSubnetworkID_in_bounds_witness :
    ∃ r, extractSubnetworkID
        (refEnv [(exSubnetworkDatagram, queryMsg 7 exSubnetworkName TypeA)] twoPeers)
        exServer exAddr exSubnetworkName = some r :=
  (extractSubnetworkID_in_bounds
    (refEnv [(exSubnetworkDatagram, queryMsg 7 exSubnetworkName TypeA)] twoPeers)
    "seed.example.com".toList "ns.example.com".toList "0.0.0.0:5354".toList exServer exAddr
    exSubnetworkDatagram (some (queryMsg 7 exSubnetworkName TypeA)) exSubnetworkName "A".toList
    (refEnv_UnpacksCodecNames _ _ _ (by
      intro q hq
      simp only [queryMsg, List.mem_singleton] at hq
      subst hq
      exact Or.inr ⟨'n', exSubnetworkText ++ ".seed.example.com.".toList, rfl, by decide⟩))
    (refEnv_SplitsFirstLabel _ _) (by rfl) (by rfl)).2

/-- The server `NewDNSServer` returns for names with a last character. -/
theorem NewDNSServer_of_getLast (hostname nameserver listen : GoString) (hl nl : Char)
    (hh : hostname.getLast? = some hl) (hn : nameserver.getLast? = some nl) :
    NewDNSServer hostname nameserver listen =
      some { hostname := if hl ≠ '.' then hostname ++ ['.'] else hostname, listen := listen,
             nameserver := if nl ≠ '.' then nameserver ++ ['.'] else nameserver } := by
  unfold NewDNSServer
  simp only [getElem?_length_sub_one, hh, hn, Option.bind_eq_bind, Option.some_bind, pure]

/-- C18.  `NewDNSServer` returns a server exactly when hostname and nameserver
are both non-empty: then both index accesses are in bounds; for an empty
hostname or an empty nameserver the access is out of range and no server is
returned.  The listen string plays no part in this: it is copied into the
server, and another listen string changes nothing else. -/
theorem NewDNSServer_defined_iff (hostname nameserver listen : GoString) :
    ((∃ d, NewDNSServer hostname nameserver listen = some d) ↔
      hostname ≠ [] ∧ nameserver ≠ []) ∧
    (hostname[hostname.length - 1]? = none ↔ hostname = []) ∧
    (nameserver[nameserver.length - 1]? = none ↔ nameserver = []) ∧
    (hostname = [] ∨ nameserver = [] → NewDNSServer hostname nameserver listen = none) ∧
    (∀ d, NewDNSServer hostname nameserver listen = some d → d.listen = listen) ∧
    (∀ listen', (NewDNSServer hostname nameserver listen').map
        (fun d => (d.hostname, d.nameserver)) =
      (NewDNSServer hostname nameserver listen).map (fun d => (d.hostname, d.nameserver))) := by
  have hidx : ∀ s : GoString, s[s.length - 1]? = none ↔ s = [] := by
    intro s
    rw [getElem?_length_sub_one, List.getLast?_eq_none_iff]
  have hnone : hostname = [] ∨ nameserver = [] →
      ∀ l, NewDNSServer hostname nameserver l = none := by
    intro h l
    unfold NewDNSServer
    rcases h with h | h
    · simp [h]
    · rcases hh : hostname[hostname.length - 1]? with _ | c
      · simp
      · simp [h]
  have hsome : hostname ≠ [] → nameserver ≠ [] → ∀ l,
      ∃ hl nl, NewDNSServer hostname nameserver l =
        some { hostname := if hl ≠ '.' then hostname ++ ['.'] else hostname, listen := l,
               nameserver := if nl ≠ '.' then nameserver ++ ['.'] else nameserver } := by
    intro hh hn l
    rcases h1 : hostname.getLast? with _ | hl
    · exact absurd (List.getLast?_eq_none_iff.1 h1) hh
    · rcases h2 : nameserver.getLast? with _ | nl
      · exact absurd (List.getLast?_eq_none_iff.1 h2) hn
      · exact ⟨hl, nl, NewDNSServer_of_getLast hostname nameserver l hl nl h1 h2⟩
  refine ⟨?_, hidx hostname, hidx nameserver, fun h => hnone h listen, ?_, ?_⟩
  · constructor
    · rintro ⟨d, hd⟩
      by_contra hcon
      have : hostname = [] ∨ nameserver = [] := by
        by_cases h : hostname = []
        · exact Or.inl h
        · exact Or.inr (by_contra fun h' => hcon ⟨h, h'⟩)
      rw [hnone this listen] at hd
      exact absurd hd (by simp)
    · rintro ⟨hh, hn⟩
      obtain ⟨hl, nl, h⟩ := hsome hh hn listen
      exact ⟨_, h⟩
  · intro d hd
    by_cases hh : hostname = []
    · rw [hnone (Or.inl hh) listen] at hd; exact absurd hd (by simp)
    · by_cases hn : nameserver = []
      · rw [hnone (Or.inr hn) listen] at hd; exact absurd hd (by simp)
      · rcases h1 : hostname.getLast? with _ | hl
        · exact absurd (List.getLast?_eq_none_iff.1 h1) hh
        · rcases h2 : nameserver.getLast? with _ | nl
          · exact absurd (List.getLast?_eq_none_iff.1 h2) hn
          · rw [NewDNSServer_of_getLast hostname nameserver listen hl nl h1 h2] at hd
            simp only [Option.some.injEq] at hd
            rw [← hd]
  · intro listen'
    by_cases hh : hostname = []
    · rw [hnone (Or.inl hh) listen, hnone (Or.inl hh) listen']
    · by_cases hn : nameserver = []
      · rw [hnone (Or.inr hn) listen, hnone (Or.inr hn) listen']
      · rcases h1 : hostname.getLast? with _ | hl
        · exact absurd (List.getLast?_eq_none_iff.1 h1) hh
        · rcases h2 : nameserver.getLast? with _ | nl
          · exact absurd (List.getLast?_eq_none_iff.1 h2) hn
          · rw [NewDNSServer_of_getLast hostname nameserver listen hl nl h1 h2,
              NewDNSServer_of_getLast hostname nameserver listen' hl nl h1 h2]
            rfl

/-- C18 at concrete names: two non-empty names give a server, an empty
hostname or an empty nameserver gives none. -/
theorem NewDNSServer_defined_iff_witness :
    (∃ d, NewDNSServer "seed.example.com".toList "ns.example.com".toList "0.0.0.0:5354".toList =
      some d) ∧
    NewDNSServer [] "ns.example.com".toList "0.0.0.0:5354".toList = none ∧
    NewDNSServer "seed.example.com".toList [] "0.0.0.0:5354".toList = none :=
  ⟨(NewDNSServer_defined_iff "seed.example.com".toList "ns.example.com".toList
      "0.0.0.0:5354".toList).1.2 ⟨by decide, by decide⟩,
    (NewDNSServer_defined_iff [] "ns.example.com".toList "0.0.0.0:5354".toList).2.2.2.1
      (Or.inl rfl),
    (NewDNSServer_defined_iff "seed.example.com".toList [] "0.0.0.0:5354".toList).2.2.2.1
      (Or.inr rfl)⟩

end DNSSeeder
